import Mathlib

/-!
# Verification of TinyPedalBroadcast core algorithms

Shallow embedding (over `ℚ`, standing for the Python floats viewed as exact
reals) of the circular-time proximity engine (`src/tinypedal/ui/broadcast_view.py`),
the flag hysteresis timers (`src/tinypedal/widget/flag.py`) and the stint
history state machine (`src/tinypedal/widget/stint_history.py`), together
with theorems settling the specification claims about them.
-/

namespace TinyPedalBroadcast

/-- Modelled from the spec: `MAX_SECONDS` is the shared numeric sentinel
meaning "Inactive" (`tinypedal/const_common.py` is not part of the sources;
the spec only requires it to be one large positive constant used uniformly). -/
def MAX_SECONDS : ℚ := 99999

/-- `BATTLE_THRESHOLD = 1.0` seconds (`broadcast_view.py` line 59). -/
def BATTLE_THRESHOLD : ℚ := 1

/-- `CLOSE_THRESHOLD = 2.0` seconds (`broadcast_view.py` line 60). -/
def CLOSE_THRESHOLD : ℚ := 2

/-- `LAPPING_THRESHOLD = 3.0` seconds (`broadcast_view.py` line 61). -/
def LAPPING_THRESHOLD : ℚ := 3

/-- `YELLOW_SPEED_THRESHOLD = 8` m/s (`broadcast_view.py` line 62). -/
def YELLOW_SPEED_THRESHOLD : ℚ := 8

/-- `YELLOW_STICKY_DURATION = 5.0` seconds (`broadcast_view.py` line 63). -/
def YELLOW_STICKY_DURATION : ℚ := 5

/-! ## Circular lap-time arithmetic

`update_drivers` (`broadcast_view.py` lines 319-325) computes, for
`opt_time` and `plr_time` and `laptime_est`:

    diff = opt_time - plr_time
    diff = diff - diff // laptime_est * laptime_est
    if diff > laptime_est * 0.5:
        diff -= laptime_est
    rel_gap = diff

Python's `//` on floats is floor division, i.e. `x // y = ⌊x / y⌋`.
The identical computation appears in `_find_battles` (lines 786-789) and
`_find_lappers` (lines 835-838). -/

/-- The wrapped signed gap exactly as computed in `update_drivers`
(`broadcast_view.py` lines 320-325): `diff = opt_time - plr_time`, then
`diff = diff - diff // laptime_est * laptime_est`, then `diff -= laptime_est`
when `diff > laptime_est * 0.5`. -/
def relGapUpdateDrivers (opt_time plr_time laptime_est : ℚ) : ℚ :=
  if (opt_time - plr_time) - ⌊(opt_time - plr_time) / laptime_est⌋ * laptime_est
      > laptime_est * (1/2) then
    (opt_time - plr_time) - ⌊(opt_time - plr_time) / laptime_est⌋ * laptime_est
      - laptime_est
  else
    (opt_time - plr_time) - ⌊(opt_time - plr_time) / laptime_est⌋ * laptime_est

/-- The wrapped signed gap exactly as computed in the pair loop of
`_find_battles` (`broadcast_view.py` lines 786-789): `diff = t_j - t_i`,
floor-mod reduced, then reduced by one period when above `half_lap`. -/
def gapFindBattles (tj ti laptime_est : ℚ) : ℚ :=
  if (tj - ti) - ⌊(tj - ti) / laptime_est⌋ * laptime_est > laptime_est * (1/2) then
    (tj - ti) - ⌊(tj - ti) / laptime_est⌋ * laptime_est - laptime_est
  else
    (tj - ti) - ⌊(tj - ti) / laptime_est⌋ * laptime_est

/-- Modelled from the spec (§4.1): `wrapDelta(a, b, period)` returns
`((a-b) mod period)` (floor-style modulo) normalized into
`(-period/2, +period/2]` by subtracting `period` when the raw modulo result
exceeds `period/2`. -/
def wrapDeltaSpec (a b period : ℚ) : ℚ :=
  if (a - b) - period * ⌊(a - b) / period⌋ > period / 2 then
    (a - b) - period * ⌊(a - b) / period⌋ - period
  else
    (a - b) - period * ⌊(a - b) / period⌋

theorem relGapUpdateDrivers_eq_spec (a b p : ℚ) :
    relGapUpdateDrivers a b p = wrapDeltaSpec a b p := by
  unfold relGapUpdateDrivers wrapDeltaSpec
  have h1 : p * (1/2) = p / 2 := by ring
  have h2 : (a - b) - (⌊(a - b) / p⌋ : ℚ) * p = (a - b) - p * ⌊(a - b) / p⌋ := by
    ring
  rw [h1, h2]

theorem gapFindBattles_eq_updateDrivers (a b p : ℚ) :
    gapFindBattles a b p = relGapUpdateDrivers a b p := rfl

/-- Raw floor-mod term rewritten through `Int.fract`. -/
theorem floorMod_eq_fract (x p : ℚ) (hp : p ≠ 0) :
    x - ⌊x / p⌋ * p = p * Int.fract (x / p) := by
  rw [Int.fract]
  field_simp
  ring

theorem relGapUpdateDrivers_lower (a b p : ℚ) (hp : 0 < p) :
    -(p / 2) < relGapUpdateDrivers a b p := by
  unfold relGapUpdateDrivers
  rw [floorMod_eq_fract _ _ (ne_of_gt hp)]
  set f := Int.fract ((a - b) / p) with hf
  have hf0 : 0 ≤ f := Int.fract_nonneg _
  have hf1 : f < 1 := Int.fract_lt_one _
  by_cases h : p * f > p * (1/2)
  · rw [if_pos h]
    nlinarith
  · rw [if_neg h]
    push_neg at h
    nlinarith

theorem relGapUpdateDrivers_upper (a b p : ℚ) (hp : 0 < p) :
    relGapUpdateDrivers a b p ≤ p / 2 := by
  unfold relGapUpdateDrivers
  rw [floorMod_eq_fract _ _ (ne_of_gt hp)]
  set f := Int.fract ((a - b) / p) with hf
  have hf0 : 0 ≤ f := Int.fract_nonneg _
  have hf1 : f < 1 := Int.fract_lt_one _
  by_cases h : p * f > p * (1/2)
  · rw [if_pos h]
    nlinarith
  · rw [if_neg h]
    push_neg at h
    nlinarith

theorem abs_relGapUpdateDrivers_le (a b p : ℚ) (hp : 0 < p) :
    |relGapUpdateDrivers a b p| ≤ p / 2 := by
  rw [abs_le]
  refine ⟨?_, relGapUpdateDrivers_upper a b p hp⟩
  have := relGapUpdateDrivers_lower a b p hp
  linarith

/-- C1: the relative gap computed for a vehicle pair, in `update_drivers`
and in `_find_battles`, equals the floor-style modulo of their difference by
the lap-time estimate `L > 0`, normalized into `(-L/2, +L/2]` by subtracting
`L` when the raw modulo result exceeds `L/2`; consequently its magnitude is
at most `L/2`. -/
theorem C1_wrap_delta_normalized (a b L : ℚ) (hL : 0 < L) :
    relGapUpdateDrivers a b L = wrapDeltaSpec a b L ∧
    gapFindBattles a b L = wrapDeltaSpec a b L ∧
    -(L / 2) < relGapUpdateDrivers a b L ∧
    relGapUpdateDrivers a b L ≤ L / 2 ∧
    |relGapUpdateDrivers a b L| ≤ L / 2 := by
  refine ⟨relGapUpdateDrivers_eq_spec a b L,
    (gapFindBattles_eq_updateDrivers a b L).trans (relGapUpdateDrivers_eq_spec a b L),
    relGapUpdateDrivers_lower a b L hL,
    relGapUpdateDrivers_upper a b L hL,
    abs_relGapUpdateDrivers_le a b L hL⟩

/-- Witness for C1 at `a = 100`, `b = 3`, `L = 90`. -/
theorem C1_wrap_delta_normalized_witness :
    (0 : ℚ) < 90 ∧
    (relGapUpdateDrivers 100 3 90 = wrapDeltaSpec 100 3 90 ∧
     gapFindBattles 100 3 90 = wrapDeltaSpec 100 3 90 ∧
     -((90 : ℚ) / 2) < relGapUpdateDrivers 100 3 90 ∧
     relGapUpdateDrivers 100 3 90 ≤ 90 / 2 ∧
     |relGapUpdateDrivers 100 3 90| ≤ 90 / 2) :=
  ⟨by norm_num, C1_wrap_delta_normalized 100 3 90 (by norm_num)⟩

/-! ## Roster model and proximity classification

`update_drivers` builds `driver_list` entries
`(driver_place, driver_class, driver_name, driver_index, rel_gap, in_pits,
is_yellow, is_blue)` (`broadcast_view.py` line 327); `in_pits` already ORs
`in_pits` and `in_garage` (line 313).  The per-index
`api.read.timing.estimated_time_into` reader is modelled as a function
`t : ℕ → ℚ`. -/

/-- One element of `driver_list` (`broadcast_view.py` line 327). -/
structure Entry where
  place : ℤ
  cls : String
  name : String
  idx : ℕ
  relGap : ℚ
  inPits : Bool
  isYellow : Bool
  isBlue : Bool
deriving DecidableEq, Repr

/-- The filter of the grouping loop in `_find_battles` (line 774):
`not in_pits and not is_yellow and not is_blue`. -/
def eligible (e : Entry) : Bool := !e.inPits && !e.isYellow && !e.isBlue

/-- Per-class index list built by `classes.setdefault(cls, []).append(idx)`
(line 775): the indices of eligible entries of class `c`, in roster order. -/
def classList (l : List Entry) (c : String) : List ℕ :=
  (l.filter (fun e => eligible e && e.cls == c)).map Entry.idx

/-- The class keys of the grouping dict.  A Python dict iterates keys in
first-insertion order; `List.dedup` keeps the last occurrences instead, but
since every class is processed exactly once and each class loop only adds
indices of its own class to the accumulated sets, the key order does not
affect the resulting sets. -/
def classKeys (l : List Entry) : List String :=
  ((l.filter eligible).map Entry.cls).dedup

/-- Inner `for j in range(i + 1, len(indices))` loop of `_find_battles`
(lines 785-796) for a fixed first index `i`: `gap = abs(diff)` with
`diff = time_into[indices[j]] - time_into[indices[i]]` wrapped; `≤ 1.0` adds
both to `battles`, else `≤ 2.0` adds both to `close`. -/
def pairInner (L : ℚ) (t : ℕ → ℚ) (i : ℕ) :
    List ℕ → Finset ℕ × Finset ℕ → Finset ℕ × Finset ℕ
  | [], acc => acc
  | j :: rest, acc =>
    if |gapFindBattles (t j) (t i) L| ≤ BATTLE_THRESHOLD then
      pairInner L t i rest (insert i (insert j acc.1), acc.2)
    else if |gapFindBattles (t j) (t i) L| ≤ CLOSE_THRESHOLD then
      pairInner L t i rest (acc.1, insert i (insert j acc.2))
    else
      pairInner L t i rest acc

/-- Outer `for i in range(len(indices))` loop of `_find_battles`
(lines 784-796): every unordered pair of the class list, first element
against each later element. -/
def pairLoop (L : ℚ) (t : ℕ → ℚ) :
    List ℕ → Finset ℕ × Finset ℕ → Finset ℕ × Finset ℕ
  | [], acc => acc
  | i :: rest, acc => pairLoop L t rest (pairInner L t i rest acc)

/-- The battle/close sets of `_find_battles` (lines 766-796) before the final
`close -= battles` subtraction, for a positive lap-time estimate: fold of the
pair loop over the class groups, skipping groups with fewer than two
members. -/
def findBattlesRaw (l : List Entry) (t : ℕ → ℚ) (L : ℚ) : Finset ℕ × Finset ℕ :=
  (classKeys l).foldl
    (fun acc c =>
      if (classList l c).length < 2 then acc
      else pairLoop L t (classList l c) acc)
    (∅, ∅)

/-- `_find_battles` (lines 755-799): returns empty sets when
`laptime_est <= 0`; otherwise runs the pair loops and finally removes from
`close` everything already in `battles` (`close -= battles`, line 798). -/
def findBattles (l : List Entry) (t : ℕ → ℚ) (L : ℚ) : Finset ℕ × Finset ℕ :=
  if L ≤ 0 then (∅, ∅)
  else ((findBattlesRaw l t L).1, (findBattlesRaw l t L).2 \ (findBattlesRaw l t L).1)

/-- `_find_lappers` (lines 801-842): empty when `laptime_est <= 0`; else
partitions non-pit entries into blue and non-blue, and marks every non-blue
index whose wrapped gap to some blue index is at most `LAPPING_THRESHOLD`. -/
def findLappers (l : List Entry) (t : ℕ → ℚ) (L : ℚ) : Finset ℕ :=
  if L ≤ 0 then ∅
  else
    let blue := (l.filter (fun e => !e.inPits && e.isBlue)).map Entry.idx
    let nonblue := (l.filter (fun e => !e.inPits && !e.isBlue)).map Entry.idx
    if blue.isEmpty then ∅
    else
      blue.foldl
        (fun acc b =>
          nonblue.foldl
            (fun acc2 nb =>
              if |gapFindBattles (t nb) (t b) L| ≤ LAPPING_THRESHOLD then
                insert nb acc2
              else acc2)
            acc)
        ∅

/-- The per-vehicle `rel_gap` of `update_drivers` (lines 307, 316-325):
zero for the reference vehicle itself, when `laptime_est <= 0`, or when no
reference is selected (`selected_index < 0`); otherwise the wrapped gap to
the reference's time into lap. -/
def relGapOf (selected : ℤ) (L : ℚ) (t : ℕ → ℚ) (idx : ℕ) : ℚ :=
  let plr_time := if 0 ≤ selected then t selected.toNat else 0
  if (idx : ℤ) = selected ∨ L ≤ 0 ∨ selected < 0 then 0
  else relGapUpdateDrivers (t idx) plr_time L

/-- C8: whenever the lap-time estimate is `≤ 0`, `_find_battles` returns two
empty sets, `_find_lappers` returns an empty set, and every per-vehicle
relative gap is zero — the disabled case yields defined neutral values (the
embedding is total, so no exception can arise). -/
theorem C8_disabled_laptime (l : List Entry) (t : ℕ → ℚ) (L : ℚ) (hL : L ≤ 0) :
    findBattles l t L = (∅, ∅) ∧
    findLappers l t L = ∅ ∧
    ∀ (selected : ℤ) (idx : ℕ), relGapOf selected L t idx = 0 := by
  refine ⟨?_, ?_, ?_⟩
  · simp [findBattles, hL]
  · simp [findLappers, hL]
  · intro selected idx
    simp [relGapOf, hL]

/-- Witness for C8: three-car roster, lap-time estimate `0`. -/
theorem C8_disabled_laptime_witness :
    (0 : ℚ) ≤ 0 ∧
    (findBattles
        [⟨1, "GT3", "A", 0, 0, false, false, false⟩,
         ⟨2, "GT3", "B", 1, 0, false, false, false⟩,
         ⟨3, "LMP2", "C", 2, 0, false, false, true⟩]
        (fun i => (i : ℚ)) 0 = (∅, ∅) ∧
     findLappers
        [⟨1, "GT3", "A", 0, 0, false, false, false⟩,
         ⟨2, "GT3", "B", 1, 0, false, false, false⟩,
         ⟨3, "LMP2", "C", 2, 0, false, false, true⟩]
        (fun i => (i : ℚ)) 0 = ∅ ∧
     ∀ (selected : ℤ) (idx : ℕ),
       relGapOf selected 0 (fun i => (i : ℚ)) idx = 0) :=
  ⟨le_refl 0, C8_disabled_laptime _ _ 0 (le_refl 0)⟩

/-! ## Battle/close classification (C2) -/

theorem abs_gapFindBattles_comm (a b L : ℚ) (hL : 0 < L) :
    |gapFindBattles a b L| = |gapFindBattles b a L| := by
  unfold gapFindBattles
  rw [floorMod_eq_fract (a - b) L (ne_of_gt hL),
    floorMod_eq_fract (b - a) L (ne_of_gt hL)]
  have hq : (b - a) / L = -((a - b) / L) := by ring
  rw [hq]
  set q := (a - b) / L with hqdef
  rcases eq_or_ne (Int.fract q) 0 with h0 | h0
  · rw [h0, Int.fract_neg_eq_zero.mpr h0]
  · rw [Int.fract_neg h0]
    set f := Int.fract q with hfdef
    have hf0 : 0 ≤ f := Int.fract_nonneg _
    have hf1 : f < 1 := Int.fract_lt_one _
    rcases lt_trichotomy f (1/2) with h | h | h
    · rw [if_neg (by nlinarith), if_pos (by nlinarith)]
      have he : L * (1 - f) - L = -(L * f) := by ring
      rw [he, abs_neg]
    · rw [if_neg (by nlinarith), if_neg (by nlinarith)]
      rw [h]
      congr 1
      ring
    · rw [if_pos (by nlinarith), if_neg (by nlinarith)]
      have he : L * f - L = -(L * (1 - f)) := by ring
      rw [he, abs_neg]

theorem pairInner_subset (L : ℚ) (t : ℕ → ℚ) (i : ℕ) (xs : List ℕ) :
    ∀ acc : Finset ℕ × Finset ℕ,
      acc.1 ⊆ (pairInner L t i xs acc).1 ∧ acc.2 ⊆ (pairInner L t i xs acc).2 := by
  induction xs with
  | nil => exact fun acc => ⟨subset_rfl, subset_rfl⟩
  | cons j rest ih =>
    intro acc
    simp only [pairInner]
    by_cases h1 : |gapFindBattles (t j) (t i) L| ≤ BATTLE_THRESHOLD
    · rw [if_pos h1]
      refine ⟨subset_trans ?_ (ih (insert i (insert j acc.1), acc.2)).1,
        (ih (insert i (insert j acc.1), acc.2)).2⟩
      exact subset_trans (Finset.subset_insert j acc.1) (Finset.subset_insert i _)
    · rw [if_neg h1]
      by_cases h2 : |gapFindBattles (t j) (t i) L| ≤ CLOSE_THRESHOLD
      · rw [if_pos h2]
        refine ⟨(ih (acc.1, insert i (insert j acc.2))).1,
          subset_trans ?_ (ih (acc.1, insert i (insert j acc.2))).2⟩
        exact subset_trans (Finset.subset_insert j acc.2) (Finset.subset_insert i _)
      · rw [if_neg h2]
        exact ih acc

theorem pairLoop_subset (L : ℚ) (t : ℕ → ℚ) (xs : List ℕ) :
    ∀ acc : Finset ℕ × Finset ℕ,
      acc.1 ⊆ (pairLoop L t xs acc).1 ∧ acc.2 ⊆ (pairLoop L t xs acc).2 := by
  induction xs with
  | nil => exact fun acc => ⟨subset_rfl, subset_rfl⟩
  | cons i rest ih =>
    intro acc
    simp only [pairLoop]
    exact ⟨subset_trans (pairInner_subset L t i rest acc).1 (ih _).1,
      subset_trans (pairInner_subset L t i rest acc).2 (ih _).2⟩

theorem pairInner_mem_battle (L : ℚ) (t : ℕ → ℚ) (i j : ℕ) (xs : List ℕ)
    (hj : j ∈ xs) (hgap : |gapFindBattles (t j) (t i) L| ≤ BATTLE_THRESHOLD) :
    ∀ acc : Finset ℕ × Finset ℕ,
      i ∈ (pairInner L t i xs acc).1 ∧ j ∈ (pairInner L t i xs acc).1 := by
  induction xs with
  | nil => cases hj
  | cons k rest ih =>
    intro acc
    simp only [pairInner]
    rcases List.mem_cons.mp hj with hk | hk
    · subst hk
      rw [if_pos hgap]
      have hsub := (pairInner_subset L t i rest (insert i (insert j acc.1), acc.2)).1
      exact ⟨hsub (Finset.mem_insert_self i _),
        hsub (Finset.mem_insert_of_mem (Finset.mem_insert_self j _))⟩
    · by_cases h1 : |gapFindBattles (t k) (t i) L| ≤ BATTLE_THRESHOLD
      · rw [if_pos h1]; exact ih hk _
      · rw [if_neg h1]
        by_cases h2 : |gapFindBattles (t k) (t i) L| ≤ CLOSE_THRESHOLD
        · rw [if_pos h2]; exact ih hk _
        · rw [if_neg h2]; exact ih hk _

theorem pairInner_mem_close (L : ℚ) (t : ℕ → ℚ) (i j : ℕ) (xs : List ℕ)
    (hj : j ∈ xs) (hgap1 : BATTLE_THRESHOLD < |gapFindBattles (t j) (t i) L|)
    (hgap2 : |gapFindBattles (t j) (t i) L| ≤ CLOSE_THRESHOLD) :
    ∀ acc : Finset ℕ × Finset ℕ,
      i ∈ (pairInner L t i xs acc).2 ∧ j ∈ (pairInner L t i xs acc).2 := by
  induction xs with
  | nil => cases hj
  | cons k rest ih =>
    intro acc
    simp only [pairInner]
    rcases List.mem_cons.mp hj with hk | hk
    · subst hk
      rw [if_neg (not_le.mpr hgap1), if_pos hgap2]
      have hsub := (pairInner_subset L t i rest (acc.1, insert i (insert j acc.2))).2
      exact ⟨hsub (Finset.mem_insert_self i _),
        hsub (Finset.mem_insert_of_mem (Finset.mem_insert_self j _))⟩
    · by_cases h1 : |gapFindBattles (t k) (t i) L| ≤ BATTLE_THRESHOLD
      · rw [if_pos h1]; exact ih hk _
      · rw [if_neg h1]
        by_cases h2 : |gapFindBattles (t k) (t i) L| ≤ CLOSE_THRESHOLD
        · rw [if_pos h2]; exact ih hk _
        · rw [if_neg h2]; exact ih hk _

theorem pairLoop_mem_battle (L : ℚ) (t : ℕ → ℚ) (hL : 0 < L) (xs : List ℕ)
    (i j : ℕ) (hi : i ∈ xs) (hj : j ∈ xs) (hne : i ≠ j)
    (hgap : |gapFindBattles (t j) (t i) L| ≤ BATTLE_THRESHOLD) :
    ∀ acc : Finset ℕ × Finset ℕ,
      i ∈ (pairLoop L t xs acc).1 ∧ j ∈ (pairLoop L t xs acc).1 := by
  induction xs with
  | nil => cases hi
  | cons k rest ih =>
    intro acc
    simp only [pairLoop]
    rcases List.mem_cons.mp hi with hik | hik
    · subst hik
      have hjrest : j ∈ rest := by
        rcases List.mem_cons.mp hj with h | h
        · exact absurd h.symm hne
        · exact h
      have hmem := pairInner_mem_battle L t i j rest hjrest hgap acc
      exact ⟨(pairLoop_subset L t rest _).1 hmem.1,
        (pairLoop_subset L t rest _).1 hmem.2⟩
    · rcases List.mem_cons.mp hj with hjk | hjk
      · subst hjk
        have hgap' : |gapFindBattles (t i) (t j) L| ≤ BATTLE_THRESHOLD := by
          rw [abs_gapFindBattles_comm _ _ _ hL]; exact hgap
        have hmem := pairInner_mem_battle L t j i rest hik hgap' acc
        exact ⟨(pairLoop_subset L t rest _).1 hmem.2,
          (pairLoop_subset L t rest _).1 hmem.1⟩
      · exact ih hik hjk _

theorem pairLoop_mem_close (L : ℚ) (t : ℕ → ℚ) (hL : 0 < L) (xs : List ℕ)
    (i j : ℕ) (hi : i ∈ xs) (hj : j ∈ xs) (hne : i ≠ j)
    (hgap1 : BATTLE_THRESHOLD < |gapFindBattles (t j) (t i) L|)
    (hgap2 : |gapFindBattles (t j) (t i) L| ≤ CLOSE_THRESHOLD) :
    ∀ acc : Finset ℕ × Finset ℕ,
      i ∈ (pairLoop L t xs acc).2 ∧ j ∈ (pairLoop L t xs acc).2 := by
  induction xs with
  | nil => cases hi
  | cons k rest ih =>
    intro acc
    simp only [pairLoop]
    rcases List.mem_cons.mp hi with hik | hik
    · subst hik
      have hjrest : j ∈ rest := by
        rcases List.mem_cons.mp hj with h | h
        · exact absurd h.symm hne
        · exact h
      have hmem := pairInner_mem_close L t i j rest hjrest hgap1 hgap2 acc
      exact ⟨(pairLoop_subset L t rest _).2 hmem.1,
        (pairLoop_subset L t rest _).2 hmem.2⟩
    · rcases List.mem_cons.mp hj with hjk | hjk
      · subst hjk
        have hc := abs_gapFindBattles_comm (t j) (t i) L hL
        have hmem := pairInner_mem_close L t j i rest hik (hc ▸ hgap1) (hc ▸ hgap2) acc
        exact ⟨(pairLoop_subset L t rest _).2 hmem.2,
          (pairLoop_subset L t rest _).2 hmem.1⟩
      · exact ih hik hjk _

/-- Folding a step function preserves a property that each step preserves. -/
theorem foldl_preserve {α β : Type} (step : β → α → β) (P : β → Prop)
    (hstep : ∀ acc c, P acc → P (step acc c)) :
    ∀ (keys : List α) (acc : β), P acc → P (keys.foldl step acc) := by
  intro keys
  induction keys with
  | nil => exact fun acc h => h
  | cons k rest ih => exact fun acc h => ih (step acc k) (hstep acc k h)

/-- A property established by the step at some key of the list, and preserved
by every step, holds of the whole fold. -/
theorem foldl_of_mem {α β : Type} (step : β → α → β) (P : β → Prop)
    (hstep : ∀ acc c, P acc → P (step acc c))
    (c : α) (hc : ∀ acc, P (step acc c)) :
    ∀ (keys : List α), c ∈ keys → ∀ acc : β, P (keys.foldl step acc) := by
  intro keys
  induction keys with
  | nil => intro h; cases h
  | cons k rest ih =>
    intro hmem acc
    rcases List.mem_cons.mp hmem with hck | hck
    · subst hck
      exact foldl_preserve step P hstep rest (step acc c) (hc acc)
    · exact ih hck (step acc k)

theorem two_le_length_of_mem {α : Type} {xs : List α} {i j : α}
    (hi : i ∈ xs) (hj : j ∈ xs) (hne : i ≠ j) : 2 ≤ xs.length := by
  match xs with
  | [] => cases hi
  | [a] =>
    rw [List.mem_singleton] at hi hj
    exact absurd (hi.trans hj.symm) hne
  | a :: b :: rest => simp only [List.length_cons]; omega

theorem mem_classList {l : List Entry} {e : Entry} (hmem : e ∈ l)
    (helig : eligible e = true) : e.idx ∈ classList l e.cls := by
  unfold classList
  refine List.mem_map.mpr ⟨e, List.mem_filter.mpr ⟨hmem, ?_⟩, rfl⟩
  simp [helig]

theorem mem_classKeys {l : List Entry} {e : Entry} (hmem : e ∈ l)
    (helig : eligible e = true) : e.cls ∈ classKeys l := by
  unfold classKeys
  exact List.mem_dedup.mpr (List.mem_map.mpr ⟨e, List.mem_filter.mpr ⟨hmem, helig⟩, rfl⟩)

/-- C2: for a positive lap-time estimate, every unordered pair of eligible
(not in pits/garage, not yellow, not blue) same-class vehicles with wrapped
absolute gap `≤ BATTLE_THRESHOLD` puts both members in the battle set;
otherwise a gap `≤ CLOSE_THRESHOLD` puts both in the (pre-subtraction) close
set; the returned close set is exactly the accumulated close set minus the
battle set, so the returned battle and close sets are disjoint. -/
theorem C2_battle_close_classification (l : List Entry) (t : ℕ → ℚ) (L : ℚ)
    (hL : 0 < L) (e1 e2 : Entry) (h1 : e1 ∈ l) (h2 : e2 ∈ l)
    (helig1 : eligible e1 = true) (helig2 : eligible e2 = true)
    (hcls : e1.cls = e2.cls) (hne : e1.idx ≠ e2.idx) :
    (|gapFindBattles (t e2.idx) (t e1.idx) L| ≤ BATTLE_THRESHOLD →
       e1.idx ∈ (findBattles l t L).1 ∧ e2.idx ∈ (findBattles l t L).1) ∧
    (BATTLE_THRESHOLD < |gapFindBattles (t e2.idx) (t e1.idx) L| →
     |gapFindBattles (t e2.idx) (t e1.idx) L| ≤ CLOSE_THRESHOLD →
       e1.idx ∈ (findBattlesRaw l t L).2 ∧ e2.idx ∈ (findBattlesRaw l t L).2) ∧
    (findBattles l t L).2 = (findBattlesRaw l t L).2 \ (findBattlesRaw l t L).1 ∧
    Disjoint (findBattles l t L).1 (findBattles l t L).2 := by
  have hnotle : ¬L ≤ 0 := not_le.mpr hL
  have hi : e1.idx ∈ classList l e1.cls := mem_classList h1 helig1
  have hjj : e2.idx ∈ classList l e1.cls := by
    rw [hcls]; exact mem_classList h2 helig2
  have hlen : ¬(classList l e1.cls).length < 2 :=
    not_lt.mpr (two_le_length_of_mem hi hjj hne)
  have hkey : e1.cls ∈ classKeys l := mem_classKeys h1 helig1
  have hstep1 : ∀ (acc : Finset ℕ × Finset ℕ) c,
      (e1.idx ∈ acc.1 ∧ e2.idx ∈ acc.1) →
      e1.idx ∈ (if (classList l c).length < 2 then acc
                else pairLoop L t (classList l c) acc).1 ∧
      e2.idx ∈ (if (classList l c).length < 2 then acc
                else pairLoop L t (classList l c) acc).1 := by
    intro acc c hacc
    by_cases h : (classList l c).length < 2
    · rw [if_pos h]; exact hacc
    · rw [if_neg h]
      exact ⟨(pairLoop_subset L t _ acc).1 hacc.1, (pairLoop_subset L t _ acc).1 hacc.2⟩
  have hstep2 : ∀ (acc : Finset ℕ × Finset ℕ) c,
      (e1.idx ∈ acc.2 ∧ e2.idx ∈ acc.2) →
      e1.idx ∈ (if (classList l c).length < 2 then acc
                else pairLoop L t (classList l c) acc).2 ∧
      e2.idx ∈ (if (classList l c).length < 2 then acc
                else pairLoop L t (classList l c) acc).2 := by
    intro acc c hacc
    by_cases h : (classList l c).length < 2
    · rw [if_pos h]; exact hacc
    · rw [if_neg h]
      exact ⟨(pairLoop_subset L t _ acc).2 hacc.1, (pairLoop_subset L t _ acc).2 hacc.2⟩
  refine ⟨?_, ?_, ?_, ?_⟩
  · intro hgap
    have hfb : (findBattles l t L).1 = (findBattlesRaw l t L).1 := by
      unfold findBattles
      rw [if_neg hnotle]
    rw [hfb]
    unfold findBattlesRaw
    exact foldl_of_mem _ (fun acc => e1.idx ∈ acc.1 ∧ e2.idx ∈ acc.1) hstep1
      e1.cls
      (fun acc => by
        rw [if_neg hlen]
        exact pairLoop_mem_battle L t hL _ _ _ hi hjj hne hgap acc)
      (classKeys l) hkey (∅, ∅)
  · intro hgap1 hgap2
    unfold findBattlesRaw
    exact foldl_of_mem _ (fun acc => e1.idx ∈ acc.2 ∧ e2.idx ∈ acc.2) hstep2
      e1.cls
      (fun acc => by
        rw [if_neg hlen]
        exact pairLoop_mem_close L t hL _ _ _ hi hjj hne hgap1 hgap2 acc)
      (classKeys l) hkey (∅, ∅)
  · unfold findBattles
    rw [if_neg hnotle]
  · unfold findBattles
    rw [if_neg hnotle]
    exact Finset.sdiff_disjoint.symm

/-- Witness for C2: two same-class eligible cars `0.5 s` apart on a `90 s`
lap, a third ineligible car elsewhere. -/
theorem C2_battle_close_classification_witness :
    (0 : ℚ) < 90 ∧
    (⟨1, "GT3", "A", 0, 0, false, false, false⟩ : Entry) ∈
      [(⟨1, "GT3", "A", 0, 0, false, false, false⟩ : Entry),
       ⟨2, "GT3", "B", 1, 0, false, false, false⟩,
       ⟨3, "GT3", "C", 2, 0, true, false, false⟩] ∧
    eligible ⟨1, "GT3", "A", 0, 0, false, false, false⟩ = true ∧
    (⟨1, "GT3", "A", 0, 0, false, false, false⟩ : Entry).idx ≠
      (⟨2, "GT3", "B", 1, 0, false, false, false⟩ : Entry).idx ∧
    ((|gapFindBattles ((fun i => if i = 0 then (0 : ℚ) else if i = 1 then 1/2 else 40) 1)
        ((fun i => if i = 0 then (0 : ℚ) else if i = 1 then 1/2 else 40) 0) 90| ≤
        BATTLE_THRESHOLD →
       (0 : ℕ) ∈ (findBattles
         [⟨1, "GT3", "A", 0, 0, false, false, false⟩,
          ⟨2, "GT3", "B", 1, 0, false, false, false⟩,
          ⟨3, "GT3", "C", 2, 0, true, false, false⟩]
         (fun i => if i = 0 then (0 : ℚ) else if i = 1 then 1/2 else 40) 90).1 ∧
       (1 : ℕ) ∈ (findBattles
         [⟨1, "GT3", "A", 0, 0, false, false, false⟩,
          ⟨2, "GT3", "B", 1, 0, false, false, false⟩,
          ⟨3, "GT3", "C", 2, 0, true, false, false⟩]
         (fun i => if i = 0 then (0 : ℚ) else if i = 1 then 1/2 else 40) 90).1) ∧
     Disjoint (findBattles
         [⟨1, "GT3", "A", 0, 0, false, false, false⟩,
          ⟨2, "GT3", "B", 1, 0, false, false, false⟩,
          ⟨3, "GT3", "C", 2, 0, true, false, false⟩]
         (fun i => if i = 0 then (0 : ℚ) else if i = 1 then 1/2 else 40) 90).1
       (findBattles
         [⟨1, "GT3", "A", 0, 0, false, false, false⟩,
          ⟨2, "GT3", "B", 1, 0, false, false, false⟩,
          ⟨3, "GT3", "C", 2, 0, true, false, false⟩]
         (fun i => if i = 0 then (0 : ℚ) else if i = 1 then 1/2 else 40) 90).2) := by
  have h := C2_battle_close_classification
    [⟨1, "GT3", "A", 0, 0, false, false, false⟩,
     ⟨2, "GT3", "B", 1, 0, false, false, false⟩,
     ⟨3, "GT3", "C", 2, 0, true, false, false⟩]
    (fun i => if i = 0 then (0 : ℚ) else if i = 1 then 1/2 else 40) 90
    (by norm_num)
    ⟨1, "GT3", "A", 0, 0, false, false, false⟩
    ⟨2, "GT3", "B", 1, 0, false, false, false⟩
    (by simp) (by simp) (by decide) (by decide) rfl (by decide)
  exact ⟨by norm_num, by simp, by decide, by decide, h.1, h.2.2.2⟩

/-! ## GreenFlagTimer (`flag.py` lines 493-521)

State is `_last_lap_stime : ℚ` (initially `-1`); the per-tick
`start_lights` reading is passed as an argument.  `update` returns the new
state and the returned value. -/

/-- `GreenFlagTimer.update` (`flag.py` lines 505-517). -/
def greenFlagUpdate (green_flag_duration : ℚ) (last_lap_stime : ℚ)
    (start_lights : ℤ) (elapsed_time : ℚ) : ℚ × ℤ :=
  let st := if start_lights > 0 then elapsed_time else last_lap_stime
  if st = -1 then (st, -1)
  else if elapsed_time - st > green_flag_duration then (-1, -1)
  else (st, start_lights)

/-- Counterexample to C4 as stated: with `green_flag_duration = 1`, a first
tick (`startLights = 3`, `elapsed = 0`) records timestamp `0`; on the next
tick (`startLights = 3`, `elapsed = 10`) the elapsed time minus the recorded
timestamp (`10 - 0 = 10`) exceeds the duration and the start-lights signal
persists, yet `update` returns the countdown value `3`, not `-1`: the
timestamp is re-recorded first, so the cap never fires while the signal is
present. -/
theorem C4_counterexample :
    (greenFlagUpdate 1 (-1) 3 0).1 = 0 ∧
    (10 : ℚ) - (greenFlagUpdate 1 (-1) 3 0).1 > 1 ∧
    (greenFlagUpdate 1 (greenFlagUpdate 1 (-1) 3 0).1 3 10).2 = 3 ∧
    (greenFlagUpdate 1 (greenFlagUpdate 1 (-1) 3 0).1 3 10).2 ≠ -1 := by
  refine ⟨?_, ?_, ?_, ?_⟩ <;> norm_num [greenFlagUpdate]

/-- C4 (amended): while `startLights > 0` the recorded timestamp is
refreshed to the current elapsed time and `update` passes the countdown
value through, so the duration cap never triggers during a persistent
start-lights signal; once the signal has cleared (`startLights ≤ 0`), if a
timestamp is recorded (`≠ -1`) and elapsed time minus it exceeds the
configured green-flag duration, `update` returns `-1` and clears the
timestamp; with no recorded timestamp it returns `-1` (bypass). -/
theorem C4_green_flag_cap_amended (dur st : ℚ) (lights : ℤ) (e : ℚ)
    (hdur : 0 ≤ dur) (he : 0 ≤ e) :
    (0 < lights → greenFlagUpdate dur st lights e = (e, lights)) ∧
    (lights ≤ 0 → st ≠ -1 → e - st > dur → greenFlagUpdate dur st lights e = (-1, -1)) ∧
    (lights ≤ 0 → st = -1 → greenFlagUpdate dur st lights e = (-1, -1)) := by
  refine ⟨?_, ?_, ?_⟩
  · intro hl
    unfold greenFlagUpdate
    rw [if_pos hl]
    have hne : e ≠ -1 := by intro h; rw [h] at he; norm_num at he
    rw [if_neg hne, if_neg (by simp only [sub_self]; exact not_lt.mpr hdur)]
  · intro hl hne hgt
    unfold greenFlagUpdate
    rw [if_neg (not_lt.mpr hl), if_neg hne, if_pos hgt]
  · intro hl hst
    unfold greenFlagUpdate
    rw [if_neg (not_lt.mpr hl), if_pos hst, hst]

/-- Witness for the amended C4: duration `2`, timestamp `5`, lights out,
elapsed `10`. -/
theorem C4_green_flag_cap_amended_witness :
    ((0 : ℚ) ≤ 2 ∧ (0 : ℚ) ≤ 10) ∧
    ((0 < (3 : ℤ) → greenFlagUpdate 2 5 3 10 = (10, 3)) ∧
     ((3 : ℤ) ≤ 0 → (5 : ℚ) ≠ -1 → (10 : ℚ) - 5 > 2 → greenFlagUpdate 2 5 3 10 = (-1, -1)) ∧
     ((3 : ℤ) ≤ 0 → (5 : ℚ) = -1 → greenFlagUpdate 2 5 3 10 = (-1, -1))) :=
  ⟨⟨by norm_num, by norm_num⟩,
   C4_green_flag_cap_amended 2 5 3 10 (by norm_num) (by norm_num)⟩

/-! ## PitTimer (`flag.py` lines 591-631)

State: `_timer_start` (`0` meaning "no timer running"), `_last_in_pits`,
`_last_pit_time`. -/

/-- The three per-vehicle fields of `PitTimer`. -/
structure PitState where
  timerStart : ℚ
  lastInPits : Bool
  lastPitTime : ℚ
deriving DecidableEq, Repr

/-- `PitTimer.__init__` / `PitTimer.reset` (`flag.py` lines 601-605, 626-630). -/
def pitTimerInit : PitState := ⟨0, false, 0⟩

/-- `PitTimer.update` (`flag.py` lines 607-624).  The rising edge
`self._last_in_pits < in_pits` records the start timestamp; a zero
`_timer_start` is falsy (`if not self._timer_start`) and yields the
`MAX_SECONDS` sentinel. -/
def pitTimerUpdate (max_duration : ℚ) (st : PitState) (in_pits : Bool)
    (elapsed_time : ℚ) : PitState × ℚ :=
  let ts := if !st.lastInPits && in_pits then elapsed_time else st.timerStart
  if ts = 0 then (⟨ts, in_pits, st.lastPitTime⟩, MAX_SECONDS)
  else if in_pits then (⟨ts, in_pits, elapsed_time - ts⟩, elapsed_time - ts)
  else if (elapsed_time - ts) - st.lastPitTime ≤ max_duration then
    (⟨ts, in_pits, st.lastPitTime⟩, -st.lastPitTime)
  else (⟨0, in_pits, st.lastPitTime⟩, MAX_SECONDS)

/-- Driving `PitTimer.update` over a list of `(in_pits, elapsed_time)`
ticks, collecting the returned values. -/
def pitTimerRun (max_duration : ℚ) : PitState → List (Bool × ℚ) → PitState × List ℚ
  | st, [] => (st, [])
  | st, (p, e) :: rest =>
    let r := pitTimerUpdate max_duration st p e
    let rr := pitTimerRun max_duration r.1 rest
    (rr.1, r.2 :: rr.2)

theorem pitTimerUpdate_rising (maxDur lpt e t0 : ℚ) (he : e ≠ 0) :
    pitTimerUpdate maxDur ⟨t0, false, lpt⟩ true e = (⟨e, true, e - e⟩, e - e) := by
  simp [pitTimerUpdate, he]

theorem pitTimerUpdate_enter_at_zero (maxDur t0 lpt : ℚ) :
    pitTimerUpdate maxDur ⟨t0, false, lpt⟩ true 0 = (⟨0, true, lpt⟩, MAX_SECONDS) := by
  simp [pitTimerUpdate]

theorem pitTimerUpdate_inPits_cont (maxDur e0 lpt e : ℚ) (he : e0 ≠ 0) :
    pitTimerUpdate maxDur ⟨e0, true, lpt⟩ true e = (⟨e0, true, e - e0⟩, e - e0) := by
  simp [pitTimerUpdate, he]

theorem pitTimerUpdate_out_highlight (maxDur e0 lpt e : ℚ) (b : Bool) (he : e0 ≠ 0)
    (hcond : (e - e0) - lpt ≤ maxDur) :
    pitTimerUpdate maxDur ⟨e0, b, lpt⟩ false e = (⟨e0, false, lpt⟩, -lpt) := by
  simp [pitTimerUpdate, he, hcond]

theorem pitTimerUpdate_out_stop (maxDur e0 lpt e : ℚ) (b : Bool) (he : e0 ≠ 0)
    (hcond : ¬(e - e0) - lpt ≤ maxDur) :
    pitTimerUpdate maxDur ⟨e0, b, lpt⟩ false e = (⟨0, false, lpt⟩, MAX_SECONDS) := by
  simp [pitTimerUpdate, he, hcond]

theorem pitTimerUpdate_zero_out (maxDur x e : ℚ) (b : Bool) :
    pitTimerUpdate maxDur ⟨0, b, x⟩ false e = (⟨0, false, x⟩, MAX_SECONDS) := by
  simp [pitTimerUpdate]

theorem pitTimerUpdate_zero_stay (maxDur x e : ℚ) :
    pitTimerUpdate maxDur ⟨0, true, x⟩ true e = (⟨0, true, x⟩, MAX_SECONDS) := by
  simp [pitTimerUpdate]

theorem pitTimerRun_append (maxDur : ℚ) (st : PitState) (tr1 tr2 : List (Bool × ℚ)) :
    pitTimerRun maxDur st (tr1 ++ tr2)
      = ((pitTimerRun maxDur (pitTimerRun maxDur st tr1).1 tr2).1,
         (pitTimerRun maxDur st tr1).2
           ++ (pitTimerRun maxDur (pitTimerRun maxDur st tr1).1 tr2).2) := by
  induction tr1 generalizing st with
  | nil => rfl
  | cons h1 t1 ih1 =>
    obtain ⟨p, e⟩ := h1
    simp only [List.cons_append, pitTimerRun, List.append_eq, ih1]

theorem pitTimerRun_stuckInPits (maxDur lpt : ℚ) (ts : List ℚ) :
    pitTimerRun maxDur ⟨0, true, lpt⟩ (ts.map (fun e => (true, e)))
      = (⟨0, true, lpt⟩, ts.map (fun _ => MAX_SECONDS)) := by
  induction ts with
  | nil => rfl
  | cons e rest ih =>
    simp only [List.map_cons, pitTimerRun]
    rw [pitTimerUpdate_zero_stay, ih]

/-- C10: a rising edge of `in_pits` first seen at elapsed time exactly `0`
stores start timestamp `0`, which is indistinguishable from "no timer
running", so `update` returns the `MAX_SECONDS` sentinel on that tick and on
every subsequent tick of the same continuous pit stay. -/
theorem C10_pit_entry_at_time_zero (maxDur : ℚ) (st : PitState)
    (h : st.lastInPits = false) (ts : List ℚ) :
    (pitTimerRun maxDur st ((true, 0) :: ts.map (fun e => (true, e)))).2
      = MAX_SECONDS :: ts.map (fun _ => MAX_SECONDS) := by
  obtain ⟨t0, b0, l0⟩ := st
  simp only at h
  subst h
  simp only [pitTimerRun]
  rw [pitTimerUpdate_enter_at_zero, pitTimerRun_stuckInPits]

/-- Witness for C10: fresh timer, pit entry at `0`, staying in pits at
`1, 2, 3`. -/
theorem C10_pit_entry_at_time_zero_witness :
    pitTimerInit.lastInPits = false ∧
    (pitTimerRun 3 pitTimerInit
        ((true, 0) :: ([1, 2, 3] : List ℚ).map (fun e => (true, e)))).2
      = MAX_SECONDS :: ([1, 2, 3] : List ℚ).map (fun _ => MAX_SECONDS) :=
  ⟨rfl, C10_pit_entry_at_time_zero 3 pitTimerInit rfl [1, 2, 3]⟩

theorem pitTimerRun_inPitsPhase (maxDur e0 : ℚ) (he : e0 ≠ 0) (ds : List ℚ) :
    ∀ lpt : ℚ, ∃ x : ℚ,
      pitTimerRun maxDur ⟨e0, true, lpt⟩ (ds.map (fun d => (true, e0 + d)))
        = (⟨e0, true, x⟩, ds) := by
  induction ds with
  | nil => exact fun lpt => ⟨lpt, rfl⟩
  | cons d rest ih =>
    intro lpt
    simp only [List.map_cons, pitTimerRun]
    rw [pitTimerUpdate_inPits_cont maxDur e0 lpt (e0 + d) he,
      show e0 + d - e0 = d from by ring]
    obtain ⟨x, hx⟩ := ih d
    rw [hx]
    exact ⟨x, rfl⟩

theorem pitTimerRun_deadOut (maxDur x : ℚ) (b : Bool) (tr : List (Bool × ℚ))
    (h : ∀ pe ∈ tr, pe.1 = false) :
    (pitTimerRun maxDur ⟨0, b, x⟩ tr).2 = tr.map (fun _ => MAX_SECONDS) := by
  induction tr generalizing b with
  | nil => rfl
  | cons pe rest ih =>
    obtain ⟨p, e⟩ := pe
    have hp : p = false := h (p, e) (List.mem_cons_self _ _)
    subst hp
    simp only [List.map_cons, pitTimerRun]
    rw [pitTimerUpdate_zero_out]
    simp only [List.cons.injEq, true_and]
    exact ih false (fun qe hqe => h qe (List.mem_cons_of_mem _ hqe))

theorem pitTimerRun_outPhase (e0 : ℚ) (he : e0 ≠ 0) :
    ∀ (outs : List ℚ), List.Sorted (· ≤ ·) outs → ∀ b : Bool,
      (pitTimerRun 3 ⟨e0, b, 5⟩ (outs.map (fun u => (false, e0 + u)))).2
        = outs.map (fun u => if u ≤ 8 then (-5 : ℚ) else MAX_SECONDS) := by
  intro outs
  induction outs with
  | nil => intro _ b; rfl
  | cons u rest ih =>
    intro hsorted b
    simp only [List.map_cons, pitTimerRun]
    by_cases hu : u ≤ 8
    · rw [pitTimerUpdate_out_highlight 3 e0 5 (e0 + u) b he
        (by rw [show e0 + u - e0 = u from by ring]; linarith)]
      rw [if_pos hu]
      simp only [List.cons.injEq, true_and]
      exact ih (List.Sorted.of_cons hsorted) false
    · rw [pitTimerUpdate_out_stop 3 e0 5 (e0 + u) b he
        (by rw [show e0 + u - e0 = u from by ring]; push_neg at hu ⊢; linarith)]
      rw [if_neg hu]
      simp only [List.cons.injEq, true_and]
      rw [pitTimerRun_deadOut 3 5 false (rest.map (fun u => (false, e0 + u)))
        (by intro pe hpe; obtain ⟨v, _, hv⟩ := List.mem_map.mp hpe; rw [← hv])]
      rw [List.map_map]
      refine List.map_congr_left fun v hv => ?_
      have huv : u ≤ v := (List.sorted_cons.mp hsorted).1 v hv
      simp only [Function.comp_apply]
      rw [if_neg (by push_neg at hu ⊢; linarith)]

theorem pitTimerRun_zero_lastPitTime_irrel (maxDur : ℚ) :
    ∀ (tr : List (Bool × ℚ)) (b : Bool) (x : ℚ),
      (pitTimerRun maxDur ⟨0, b, x⟩ tr).2 = (pitTimerRun maxDur ⟨0, b, 0⟩ tr).2 := by
  intro tr
  induction tr with
  | nil => intro b x; rfl
  | cons pe rest ih =>
    intro b x
    obtain ⟨p, e⟩ := pe
    match p with
    | false =>
      simp only [pitTimerRun]
      rw [pitTimerUpdate_zero_out maxDur x e b, pitTimerUpdate_zero_out maxDur 0 e b]
      simp only [List.cons.injEq, true_and]
      exact ih false x
    | true =>
      match b with
      | true =>
        simp only [pitTimerRun]
        rw [pitTimerUpdate_zero_stay, pitTimerUpdate_zero_stay]
        simp only [List.cons.injEq, true_and]
        exact ih true x
      | false =>
        by_cases hez : e = 0
        · subst hez
          simp only [pitTimerRun]
          rw [pitTimerUpdate_enter_at_zero, pitTimerUpdate_enter_at_zero]
          simp only [List.cons.injEq, true_and]
          exact ih true x
        · simp only [pitTimerRun]
          rw [pitTimerUpdate_rising maxDur x e 0 hez, pitTimerUpdate_rising maxDur 0 e 0 hez]

/-- C5: a `PitTimer` with highlight duration `3 s`, rising edge of
`in_pits` at a positive elapsed time `e0`, in-pit ticks at relative times
`ds` and a last in-pit tick at relative time `5` (pit duration `5 s`),
followed by out-of-pit ticks at increasing relative times `outs`: the
update returns the elapsed-in-pits value on each in-pit tick, `-5` (the
negative of the last pit duration) on each out tick with relative time at
most `8` (i.e. in `(5, 8]` for monotone traces), and the `MAX_SECONDS`
Inactive sentinel on each later out tick; once the sentinel is returned the
timer is behaviorally reset: with `_timer_start = 0` the leftover
`_last_pit_time` is unobservable. -/
theorem C5_pit_timer_highlight (e0 : ℚ) (he : 0 < e0) (ds outs : List ℚ)
    (hsorted : List.Sorted (· ≤ ·) outs) :
    (pitTimerRun 3 pitTimerInit
        ((true, e0) :: (ds.map (fun d => (true, e0 + d)) ++ [(true, e0 + 5)]
          ++ outs.map (fun u => (false, e0 + u))))).2
      = 0 :: (ds ++ [5] ++ outs.map (fun u => if u ≤ 8 then (-5 : ℚ) else MAX_SECONDS)) ∧
    (∀ (tr : List (Bool × ℚ)) (b : Bool) (x : ℚ),
      (pitTimerRun 3 ⟨0, b, x⟩ tr).2 = (pitTimerRun 3 ⟨0, b, 0⟩ tr).2) := by
  have hne : e0 ≠ 0 := ne_of_gt he
  constructor
  · simp only [pitTimerRun, pitTimerInit]
    rw [pitTimerUpdate_rising 3 0 e0 0 hne, show e0 - e0 = 0 from by ring]
    obtain ⟨x, hx⟩ := pitTimerRun_inPitsPhase 3 e0 hne ds 0
    rw [List.append_assoc, pitTimerRun_append, hx]
    simp only []
    rw [pitTimerRun_append]
    rw [show pitTimerRun 3 ⟨e0, true, x⟩ [(true, e0 + 5)] = (⟨e0, true, 5⟩, [5]) from by
      simp only [pitTimerRun]
      rw [pitTimerUpdate_inPits_cont 3 e0 x (e0 + 5) hne,
        show e0 + 5 - e0 = 5 from by ring]]
    simp only []
    rw [pitTimerRun_outPhase e0 hne outs hsorted true]
    simp

  · exact pitTimerRun_zero_lastPitTime_irrel 3

/-- Witness for C5: entry at elapsed `2`, mid-pit ticks at relative `1, 3`,
exit ticks at relative `6, 7, 8, 9, 10`. -/
theorem C5_pit_timer_highlight_witness :
    ((0 : ℚ) < 2 ∧ List.Sorted (· ≤ ·) ([6, 7, 8, 9, 10] : List ℚ)) ∧
    ((pitTimerRun 3 pitTimerInit
        ((true, 2) :: (([1, 3] : List ℚ).map (fun d => (true, 2 + d)) ++ [(true, 2 + 5)]
          ++ ([6, 7, 8, 9, 10] : List ℚ).map (fun u => (false, 2 + u))))).2
      = 0 :: (([1, 3] : List ℚ) ++ [5]
          ++ ([6, 7, 8, 9, 10] : List ℚ).map
              (fun u => if u ≤ 8 then (-5 : ℚ) else MAX_SECONDS)) ∧
    (∀ (tr : List (Bool × ℚ)) (b : Bool) (x : ℚ),
      (pitTimerRun 3 ⟨0, b, x⟩ tr).2 = (pitTimerRun 3 ⟨0, b, 0⟩ tr).2)) :=
  ⟨⟨by norm_num, by decide⟩,
   C5_pit_timer_highlight 2 (by norm_num) [1, 3] [6, 7, 8, 9, 10] (by decide)⟩

/-! ## Sticky yellow flag (`broadcast_view.py` lines 82, 714-731)

`self._yellow_timestamps` is a dict keyed by `driver_index` (line 82:
`driver_index -> last time yellow was active`), modelled as a total map
`ℕ → Option ℚ`; `dict.pop` writes `none`, assignment writes `some`. -/

/-- `self._yellow_timestamps.pop(k, None)`. -/
def dictPop (d : ℕ → Option ℚ) (k : ℕ) : ℕ → Option ℚ :=
  fun j => if j = k then none else d j

/-- `self._yellow_timestamps[k] = v`. -/
def dictSet (d : ℕ → Option ℚ) (k : ℕ) (v : ℚ) : ℕ → Option ℚ :=
  fun j => if j = k then some v else d j

/-- `BroadcastList._check_yellow` (lines 714-731): new dict state and the
returned boolean.  `now` models the `monotonic()` reading of that call. -/
def checkYellow (d : ℕ → Option ℚ) (driver_index : ℕ) (in_pits : Bool)
    (speed now : ℚ) : (ℕ → Option ℚ) × Bool :=
  if in_pits then (dictPop d driver_index, false)
  else if speed < YELLOW_SPEED_THRESHOLD then (dictSet d driver_index now, true)
  else
    match d driver_index with
    | some last_yellow =>
      if now - last_yellow < YELLOW_STICKY_DURATION then (d, true)
      else (dictPop d driver_index, false)
    | none => (dictPop d driver_index, false)

/-- Driving `_check_yellow` for one fixed driver index over a list of
`(in_pits, speed, now)` samples, collecting the returned booleans. -/
def checkYellowRun (d : ℕ → Option ℚ) (idx : ℕ) :
    List (Bool × ℚ × ℚ) → (ℕ → Option ℚ) × List Bool
  | [] => (d, [])
  | (p, v, now) :: rest =>
    let r := checkYellow d idx p v now
    let rr := checkYellowRun r.1 idx rest
    (rr.1, r.2 :: rr.2)

/-- Counterexample to C6 as stated: a vehicle slow (5 m/s) at `t = 10` that
rises to 20 m/s at `t = 11` is claimed Active for all ticks `t ∈ [10, 16)`;
but at `t = 15` (which lies in `[10, 16)`) the code computes
`now - last = 15 - 10 = 5`, which is not `< YELLOW_STICKY_DURATION = 5`, so
the result is Inactive: the run of samples at `t = 10, 11, 15` returns
`[true, true, false]`. -/
theorem C6_counterexample :
    (10 : ℚ) ≤ 15 ∧ (15 : ℚ) < 16 ∧
    (checkYellowRun (fun _ => none) 0
        [(false, 5, 10), (false, 20, 11), (false, 20, 15)]).2
      = [true, true, false] := by
  refine ⟨by norm_num, by norm_num, ?_⟩
  norm_num [checkYellowRun, checkYellow, dictSet, dictPop,
    YELLOW_SPEED_THRESHOLD, YELLOW_STICKY_DURATION]

/-- C6 (amended): while in pits the stored timestamp is cleared and the
result is Inactive; a sample with speed below `8 m/s` records the current
time and returns Active; above the threshold the Active state persists
while `now - stored < YELLOW_STICKY_DURATION` and is cleared afterwards —
so the hold lasts `5 s` after the *last below-threshold sample*, not after
recovery: a vehicle slow at `t = 10` that is fast from `t = 11` on is
Active exactly on ticks with `t - 10 < 5` (i.e. `[10, 15)`), Inactive from
`t = 15`. -/
theorem C6_yellow_sticky_amended :
    (∀ (d : ℕ → Option ℚ) (idx : ℕ) (speed now : ℚ),
      checkYellow d idx true speed now = (dictPop d idx, false)) ∧
    (∀ (d : ℕ → Option ℚ) (idx : ℕ) (speed now : ℚ), speed < YELLOW_SPEED_THRESHOLD →
      checkYellow d idx false speed now = (dictSet d idx now, true)) ∧
    (∀ (d : ℕ → Option ℚ) (idx : ℕ) (speed now ts : ℚ),
      ¬speed < YELLOW_SPEED_THRESHOLD → d idx = some ts →
      now - ts < YELLOW_STICKY_DURATION →
      checkYellow d idx false speed now = (d, true)) ∧
    (∀ (d : ℕ → Option ℚ) (idx : ℕ) (speed now ts : ℚ),
      ¬speed < YELLOW_SPEED_THRESHOLD → d idx = some ts →
      ¬now - ts < YELLOW_STICKY_DURATION →
      checkYellow d idx false speed now = (dictPop d idx, false)) ∧
    (∀ (d : ℕ → Option ℚ) (idx : ℕ) (now : ℚ),
      (checkYellow (checkYellow d idx false 5 10).1 idx false 20 now).2 = true ↔
        now - 10 < YELLOW_STICKY_DURATION) := by
  refine ⟨?_, ?_, ?_, ?_, ?_⟩
  · intro d idx speed now
    simp [checkYellow]
  · intro d idx speed now h
    simp [checkYellow, h]
  · intro d idx speed now ts hsp hts hlt
    simp [checkYellow, hsp, hts, hlt]
  · intro d idx speed now ts hsp hts hge
    simp [checkYellow, hsp, hts, hge]
  · intro d idx now
    have h5 : (5 : ℚ) < YELLOW_SPEED_THRESHOLD := by norm_num [YELLOW_SPEED_THRESHOLD]
    have h20 : ¬(20 : ℚ) < YELLOW_SPEED_THRESHOLD := by norm_num [YELLOW_SPEED_THRESHOLD]
    rw [show (checkYellow d idx false 5 10).1 = dictSet d idx 10 from by
      simp [checkYellow, h5]]
    have hidx : dictSet d idx 10 idx = some 10 := by simp [dictSet]
    by_cases hnow : now - 10 < YELLOW_STICKY_DURATION
    · simp [checkYellow, h20, hidx, hnow]
    · simp [checkYellow, h20, hidx, hnow]

/-- Witness for the amended C6 at concrete inputs: empty dict, index `0`,
slow sample at `t = 10`, fast samples at `t = 14` (Active) and `t = 15`
(Inactive). -/
theorem C6_yellow_sticky_amended_witness :
    checkYellow (fun _ => none) 0 true 20 10 = (dictPop (fun _ => none) 0, false) ∧
    checkYellow (fun _ => none) 0 false 5 10 = (dictSet (fun _ => none) 0 10, true) ∧
    ((checkYellow (checkYellow (fun _ => none) 0 false 5 10).1 0 false 20 14).2 = true ↔
      (14 : ℚ) - 10 < YELLOW_STICKY_DURATION) ∧
    ((checkYellow (checkYellow (fun _ => none) 0 false 5 10).1 0 false 20 15).2 = true ↔
      (15 : ℚ) - 10 < YELLOW_STICKY_DURATION) :=
  ⟨C6_yellow_sticky_amended.1 (fun _ => none) 0 20 10,
   C6_yellow_sticky_amended.2.1 (fun _ => none) 0 5 10
     (by norm_num [YELLOW_SPEED_THRESHOLD]),
   C6_yellow_sticky_amended.2.2.2.2 (fun _ => none) 0 14,
   C6_yellow_sticky_amended.2.2.2.2 (fun _ => none) 0 15⟩

/-! ## Per-tick yellow classification over a roster (C9)

`update_drivers` calls `_check_yellow(driver_index, ...)` for each roster
index in ascending order (line 309, 314).  A `Car` carries the roster index
the vehicle occupies this tick, its stable slot id (`slot_id`, which the
code does *not* use for the yellow cache), and its signals. -/

/-- One vehicle of one tick: roster index, stable slot id, signals. -/
structure Car where
  index : ℕ
  slot : ℕ
  inPits : Bool
  speed : ℚ
deriving DecidableEq, Repr

/-- One tick: run `_check_yellow` for each car in roster order, reporting
`(slot id, is_yellow)` per vehicle. -/
def yellowTick (d : ℕ → Option ℚ) (now : ℚ) :
    List Car → (ℕ → Option ℚ) × List (ℕ × Bool)
  | [] => (d, [])
  | c :: rest =>
    let r := checkYellow d c.index c.inPits c.speed now
    let rr := yellowTick r.1 now rest
    (rr.1, (c.slot, r.2) :: rr.2)

/-- A whole run: list of `(now, roster)` ticks. -/
def yellowRun (d : ℕ → Option ℚ) :
    List (ℚ × List Car) → (ℕ → Option ℚ) × List (List (ℕ × Bool))
  | [] => (d, [])
  | (now, cars) :: rest =>
    let r := yellowTick d now cars
    let rr := yellowRun r.1 rest
    (rr.1, r.2 :: rr.2)

/-- Counterexample to C9 as stated: two runs with identical per-vehicle
signals for the stable slots `100` (slow at `t = 10`, fast at `t = 11`) and
`200` (fast at both ticks).  Run 1 keeps slot `100` at index `0` and slot
`200` at index `1` on both ticks; run 2 swaps the indices on the second
tick.  Because `_yellow_timestamps` is keyed by roster index, the sticky
hold recorded at index `0` is reported for slot `100` in run 1 but for slot
`200` in run 2: vehicle `200` is classified `false` in run 1 and `true` in
run 2, so permuting roster indices between ticks transfers the hold. -/
theorem C9_counterexample :
    (yellowRun (fun _ => none)
        [(10, [⟨0, 100, false, 5⟩, ⟨1, 200, false, 20⟩]),
         (11, [⟨0, 100, false, 20⟩, ⟨1, 200, false, 20⟩])]).2
      = [[(100, true), (200, false)], [(100, true), (200, false)]] ∧
    (yellowRun (fun _ => none)
        [(10, [⟨0, 100, false, 5⟩, ⟨1, 200, false, 20⟩]),
         (11, [⟨0, 200, false, 20⟩, ⟨1, 100, false, 20⟩])]).2
      = [[(100, true), (200, false)], [(200, true), (100, false)]] := by
  constructor <;>
    norm_num [yellowRun, yellowTick, checkYellow, dictSet, dictPop,
      YELLOW_SPEED_THRESHOLD, YELLOW_STICKY_DURATION]

theorem checkYellow_reindex (σ : ℕ → ℕ) (hσ : Function.Injective σ)
    (d d' : ℕ → Option ℚ) (hcorr : ∀ j, d' (σ j) = d j)
    (i : ℕ) (p : Bool) (v now : ℚ) :
    (checkYellow d' (σ i) p v now).2 = (checkYellow d i p v now).2 ∧
    ∀ j, (checkYellow d' (σ i) p v now).1 (σ j) = (checkYellow d i p v now).1 j := by
  have hpop : ∀ j, dictPop d' (σ i) (σ j) = dictPop d i j := by
    intro j
    unfold dictPop
    by_cases hj : j = i
    · subst hj; simp
    · rw [if_neg (fun h => hj (hσ h)), if_neg hj, hcorr]
  have hset : ∀ j, dictSet d' (σ i) now (σ j) = dictSet d i now j := by
    intro j
    unfold dictSet
    by_cases hj : j = i
    · subst hj; simp
    · rw [if_neg (fun h => hj (hσ h)), if_neg hj, hcorr]
  unfold checkYellow
  by_cases hp : p
  · subst hp
    simp only [if_pos rfl]
    exact ⟨rfl, hpop⟩
  · have hp' : p = false := by
      cases p
      · rfl
      · exact absurd rfl hp
    subst hp'
    simp only [Bool.false_eq_true, if_false]
    by_cases hv : v < YELLOW_SPEED_THRESHOLD
    · rw [if_pos hv, if_pos hv]
      exact ⟨rfl, hset⟩
    · rw [if_neg hv, if_neg hv, hcorr i]
      rcases hdi : d i with _ | last
      · exact ⟨rfl, hpop⟩
      · dsimp only
        by_cases hlast : now - last < YELLOW_STICKY_DURATION
        · rw [if_pos hlast, if_pos hlast]
          exact ⟨rfl, fun j => hcorr j⟩
        · rw [if_neg hlast, if_neg hlast]
          exact ⟨rfl, hpop⟩

theorem yellowTick_reindex (σ : ℕ → ℕ) (hσ : Function.Injective σ) (now : ℚ) :
    ∀ (cars : List Car) (d d' : ℕ → Option ℚ), (∀ j, d' (σ j) = d j) →
      (yellowTick d' now (cars.map
          (fun c => ⟨σ c.index, c.slot, c.inPits, c.speed⟩))).2
        = (yellowTick d now cars).2 ∧
      ∀ j, (yellowTick d' now (cars.map
          (fun c => ⟨σ c.index, c.slot, c.inPits, c.speed⟩))).1 (σ j)
        = (yellowTick d now cars).1 j := by
  intro cars
  induction cars with
  | nil => exact fun d d' hcorr => ⟨rfl, fun j => hcorr j⟩
  | cons c rest ih =>
    intro d d' hcorr
    simp only [List.map_cons, yellowTick]
    obtain ⟨ho, hs⟩ := checkYellow_reindex σ hσ d d' hcorr c.index c.inPits c.speed now
    obtain ⟨ho', hs'⟩ := ih (checkYellow d c.index c.inPits c.speed now).1
      (checkYellow d' (σ c.index) c.inPits c.speed now).1 hs
    rw [ho, ho']
    exact ⟨rfl, hs'⟩

/-- C9 (amended): the sticky-yellow cache is keyed by the roster index of
the vehicle, so classification is equivariant under any *injective
re-indexing that is constant across ticks*: two runs presenting the same
per-vehicle signals, with the indices of run 2 obtained from run 1 by one
fixed injection `σ`, report the same `(slot, is_yellow)` classification for
every vehicle on every tick.  (As the counterexample shows, permuting the
indices *between* ticks can transfer one vehicle's sticky hold to another,
because the cache key is the roster index, not the stable slot id.) -/
theorem C9_yellow_reindex_equivariance (σ : ℕ → ℕ) (hσ : Function.Injective σ)
    (ticks : List (ℚ × List Car)) :
    ∀ (d d' : ℕ → Option ℚ), (∀ j, d' (σ j) = d j) →
      (yellowRun d' (ticks.map
          (fun tc => (tc.1, tc.2.map (fun c => ⟨σ c.index, c.slot, c.inPits, c.speed⟩))))).2
        = (yellowRun d ticks).2 := by
  induction ticks with
  | nil => exact fun d d' _ => rfl
  | cons tc rest ih =>
    intro d d' hcorr
    obtain ⟨now, cars⟩ := tc
    simp only [List.map_cons, yellowRun]
    obtain ⟨ho, hs⟩ := yellowTick_reindex σ hσ now cars d d' hcorr
    rw [ho, ih _ _ hs]

/-- Witness for the amended C9: the two-tick scenario of the counterexample
re-indexed by `σ = (· + 7)` (constant across ticks) classifies identically. -/
theorem C9_yellow_reindex_equivariance_witness :
    Function.Injective (fun n : ℕ => n + 7) ∧
    (∀ j : ℕ, (fun _ : ℕ => (none : Option ℚ)) ((fun n : ℕ => n + 7) j)
      = (fun _ : ℕ => (none : Option ℚ)) j) ∧
    (yellowRun (fun _ => none)
        (([(10, [⟨0, 100, false, 5⟩, ⟨1, 200, false, 20⟩]),
           (11, [⟨0, 100, false, 20⟩, ⟨1, 200, false, 20⟩])] :
            List (ℚ × List Car)).map
          (fun tc => (tc.1, tc.2.map
            (fun c => ⟨(fun n : ℕ => n + 7) c.index, c.slot, c.inPits, c.speed⟩))))).2
      = (yellowRun (fun _ => none)
          [(10, [⟨0, 100, false, 5⟩, ⟨1, 200, false, 20⟩]),
           (11, [⟨0, 100, false, 20⟩, ⟨1, 200, false, 20⟩])]).2 :=
  ⟨add_left_injective 7,
   fun j => rfl,
   C9_yellow_reindex_equivariance (fun n => n + 7) (add_left_injective 7)
     [(10, [⟨0, 100, false, 5⟩, ⟨1, 200, false, 20⟩]),
      (11, [⟨0, 100, false, 20⟩, ⟨1, 200, false, 20⟩])]
     (fun _ => none) (fun _ => none) (fun j => rfl)⟩

/-! ## Stint history state machine (`stint_history.py` lines 337-470)

`stint_history_stats` is a generator decorated with `generator_init` (from
`tinypedal/validator.py`, not part of the sources), which primes the
generator to its first `yield False`.  Each widget tick calls
`next(self.stint_stats)`, which runs the body from the last suspension
point to the next `yield`.  The loop has the shape
`while True: yield False; <body possibly reaching a yield True>`; when a
stint closes, `yield True` suspends mid-body and the following `next()`
call finishes the remainder of the body with the *already-read* sample
before returning `False`.  The state therefore carries the generator's
locals plus an optional pending sample for that mid-body suspension. -/

/-- One tick's readings, as read at the top of the generator loop
(`stint_history.py` lines 374-381), plus the per-stint compound code built
at reset (lines 429-433; `select_compound_symbol` is an external lookup,
modelled as the resulting string). -/
structure StintSample where
  lap_stime : ℚ
  lap_number : ℤ
  elapsed_time : ℚ
  in_pits : Bool
  in_garage : Bool
  pre_race : Bool
  tyre_wear : List ℚ
  fuel_curr : ℚ
  energy_curr : ℚ
  speed : ℚ
  carcass_max : ℚ
  compound : String
deriving DecidableEq, Repr

/-- `wear_avg = 100 - sum(api.read.tyre.wear()) * 25` (line 379). -/
def wearAvg (s : StintSample) : ℚ := 100 - s.tyre_wear.sum * 25

/-- The widget's `stint_data` record: `0=laps, 1=time, 2=fuel, 3=energy,
4=compound, 5=wear, 6=delta, 7=consistencyPct` (lines 204-206). -/
structure StintRecord where
  laps : ℤ
  time : ℚ
  fuel : ℚ
  energy : ℚ
  compound : String
  wear : ℚ
  delta : ℚ
  consistencyPct : ℚ
deriving DecidableEq, Repr

/-- `self.stint_data = [0, 0.0, 0.0, 0.0, "--", 0.0, 0.0, 0.0]` (line 206). -/
def emptyStintRecord : StintRecord := ⟨0, 0, 0, 0, "--", 0, 0, 0⟩

/-- The generator's locals (lines 346-369) plus the pending mid-body
sample and the bounded history deque. -/
structure StintState where
  reset_stint : Bool
  stint_running : Bool
  start_laps : ℤ
  start_time : ℚ
  start_fuel : ℚ
  start_energy : ℚ
  start_wear : ℚ
  last_time : ℚ
  last_wear_avg : ℚ
  last_fuel_curr : ℚ
  last_energy_curr : ℚ
  last_time_stop : ℚ
  pitting : Bool
  last_lap_stime : Option ℚ
  stint_laps : ℕ
  stint_time : ℚ
  stint_fastest : ℚ
  consistency : ℚ
  delta : ℚ
  stint_data : StintRecord
  history : List StintRecord
  pending : Option StintSample
deriving DecidableEq, Repr

/-- Tunable thresholds handed to `stint_history_stats` (lines 209-215). -/
structure StintParams where
  minimum_stint_seconds : ℚ
  minimum_pitstop_seconds : ℚ
  minimum_tyre_temperature : ℚ
  history_cap : ℕ
deriving DecidableEq, Repr

/-- The primed generator: locals as initialized before the first
`yield False` (lines 346-369); `FLOAT_INF` for `last_lap_stime` is modelled
as `none`; the history deque starts pre-filled with `empty_data` and has
fixed capacity (line 208). -/
def stintInit (cap : ℕ) : StintState where
  reset_stint := true
  stint_running := false
  start_laps := 0
  start_time := 0
  start_fuel := 0
  start_energy := 0
  start_wear := 0
  last_time := 0
  last_wear_avg := 0
  last_fuel_curr := 0
  last_energy_curr := 0
  last_time_stop := 0
  pitting := true
  last_lap_stime := none
  stint_laps := 0
  stint_time := 0
  stint_fastest := MAX_SECONDS
  consistency := 1
  delta := 0
  stint_data := emptyStintRecord
  history := List.replicate cap emptyStintRecord
  pending := none

/-- `history_data.appendleft(tuple(stint_data))` on a deque with `maxlen`:
prepend and drop beyond capacity. -/
def pushHistory (cap : ℕ) (r : StintRecord) (h : List StintRecord) : List StintRecord :=
  (r :: h).take cap

/-- The reset block `if reset_stint:` (lines 411-433), including the
per-stint compound capture into `stint_data[4]`. -/
def applyReset (st : StintState) (s : StintSample) : StintState :=
  if st.reset_stint then
    { st with
      reset_stint := false
      stint_running := false
      start_laps := s.lap_number
      start_time := s.elapsed_time
      start_fuel := s.fuel_curr
      start_energy := s.energy_curr
      start_wear := wearAvg s
      pitting := true
      last_lap_stime := none
      stint_laps := 0
      stint_time := 0
      stint_fastest := MAX_SECONDS
      consistency := 1
      delta := 0
      stint_data := { st.stint_data with compound := s.compound } }
  else st

/-- `if start_fuel < fuel_curr: start_fuel = fuel_curr` and the same for
energy (lines 435-438). -/
def applyRaise (st : StintState) (s : StintSample) : StintState :=
  let st1 := if st.start_fuel < s.fuel_curr then { st with start_fuel := s.fuel_curr } else st
  if st1.start_energy < s.energy_curr then { st1 with start_energy := s.energy_curr } else st1

/-- `pitting |= in_pits` and the consistency sub-machine
(lines 440-461).  The `last_lap_stime = FLOAT_INF` case (`none`) always
differs from the finite `lap_stime`; its `last_laptime = lap_stime - inf`
is non-positive, so the lap is not counted and `pitting` becomes `True`. -/
def applyLap (p : StintParams) (st : StintState) (s : StintSample) : StintState :=
  let st := { st with pitting := st.pitting || s.in_pits }
  Option.elim st.last_lap_stime
    { st with pitting := true, last_lap_stime := some s.lap_stime }
    (fun prev =>
    if s.lap_stime = prev then st
    else
      let last_laptime := s.lap_stime - prev
      let st1 :=
        if st.pitting = false ∧ 0 < last_laptime ∧
            p.minimum_tyre_temperature < s.carcass_max then
          let fastest1 := if last_laptime < st.stint_fastest then last_laptime
                          else st.stint_fastest
          let st2 := { st with
            stint_laps := st.stint_laps + 1
            stint_time := st.stint_time + last_laptime
            stint_fastest := fastest1 }
          if 1 < st2.stint_laps then
            if 0 < (st2.stint_time - st2.stint_fastest) / ((st2.stint_laps : ℚ) - 1) then
              { st2 with
                consistency := st2.stint_fastest /
                  ((st2.stint_time - st2.stint_fastest) / ((st2.stint_laps : ℚ) - 1))
                delta := (st2.stint_time - st2.stint_fastest) / ((st2.stint_laps : ℚ) - 1)
                  - st2.stint_fastest }
            else st2
          else st2
        else st
      { st1 with pitting := decide (last_laptime ≤ 0), last_lap_stime := some s.lap_stime })

/-- The per-tick `stint_data` writes (lines 463-470). -/
def applyData (st : StintState) (s : StintSample) : StintState :=
  { st with stint_data := { st.stint_data with
      laps := max (s.lap_number - st.start_laps) 0
      time := max (s.elapsed_time - st.start_time) 0
      fuel := max (st.start_fuel - s.fuel_curr) 0
      energy := max (st.start_energy - s.energy_curr) 0
      wear := max (wearAvg s - st.start_wear) 0
      delta := st.delta
      consistencyPct := st.consistency * 100 } }

/-- Everything the generator body executes after the garage/track/pit
`if/elif` chain, starting at `last_time = elapsed_time` (line 409): both
`yield True` sites resume into exactly this remainder. -/
def stintTail (p : StintParams) (st : StintState) (s : StintSample) : StintState :=
  applyData (applyLap p (applyRaise (applyReset { st with last_time := s.elapsed_time } s) s) s) s

/-- The garage/pre-race/pause condition of the first branch (lines 384-388). -/
def garageCond (st : StintState) (s : StintSample) : Prop :=
  s.in_garage = true ∨ s.pre_race = true ∨ 4 < |st.last_time - s.elapsed_time|

instance (st : StintState) (s : StintSample) : Decidable (garageCond st s) := by
  unfold garageCond
  infer_instance

/-- One `next(self.stint_stats)` call: if the generator is suspended at a
`yield True`, it finishes the body with the stored sample and returns
`False`; otherwise it reads the tick's sample, runs the branch chain
(lines 383-407) — possibly pushing the current record and suspending at
`yield True` — and otherwise completes the body. -/
def stintTick (p : StintParams) (st : StintState) (s : StintSample) : StintState × Bool :=
  match st.pending with
  | some s0 => (stintTail p { st with pending := none } s0, false)
  | none =>
    if garageCond st s then
      let st1 := { st with reset_stint := true }
      if st1.stint_running = true ∧ p.minimum_stint_seconds ≤ st1.stint_data.time then
        ({ st1 with
            history := pushHistory p.history_cap st1.stint_data st1.history
            pending := some s }, true)
      else (stintTail p st1 s, false)
    else if s.in_pits = false then
      (stintTail p { st with
        last_fuel_curr := s.fuel_curr
        last_energy_curr := s.energy_curr
        last_wear_avg := wearAvg s
        stint_running := true } s, false)
    else if st.stint_running = true then
      let st1 := if 1 < s.speed then { st with last_time_stop := s.elapsed_time } else st
      if st1.last_wear_avg > wearAvg s ∨ st1.last_fuel_curr < s.fuel_curr
          ∨ st1.last_energy_curr < s.energy_curr
          ∨ p.minimum_pitstop_seconds < s.elapsed_time - st1.last_time_stop then
        ({ st1 with
            reset_stint := true
            history := pushHistory p.history_cap st1.stint_data st1.history
            pending := some s }, true)
      else (stintTail p st1 s, false)
    else (stintTail p st s, false)

/-- A whole run of `next()` calls, one per widget tick. -/
def stintRun (p : StintParams) : StintState → List StintSample → StintState
  | st, [] => st
  | st, s :: rest => stintRun p (stintTick p st s).1 rest

/-! ### C3: minimum stint duration on history emission -/

/-- C3 (amended): on the garage / pre-race / session-pause close path
(lines 384-392), a history record is pushed only when the stint was running
and its accumulated time `stint_data[1]` is at least
`minimum_stint_seconds`, and the pushed record is the current
`stint_data`.  (The pit-stop close path, lines 398-407, pushes without this
check — see the counterexample.) -/
theorem C3_min_stint_garage_path (p : StintParams) (st : StintState)
    (s : StintSample) (hpend : st.pending = none) (hg : garageCond st s)
    (htrue : (stintTick p st s).2 = true) :
    p.minimum_stint_seconds ≤ st.stint_data.time ∧
    (stintTick p st s).1.history = pushHistory p.history_cap st.stint_data st.history := by
  by_cases hc : st.stint_running = true ∧ p.minimum_stint_seconds ≤ st.stint_data.time
  · refine ⟨hc.2, ?_⟩
    simp [stintTick, hpend, hg, hc]
  · exfalso
    simp [stintTick, hpend, hg, hc] at htrue

/-- Witness for the amended C3: a running stint of `700 s` closed by a
garage return under a `600 s` minimum. -/
theorem C3_min_stint_garage_path_witness :
    (({ stintInit 3 with
        stint_running := true
        stint_data := { emptyStintRecord with time := 700 } } : StintState).pending
      = none) ∧
    garageCond
      { stintInit 3 with
        stint_running := true
        stint_data := { emptyStintRecord with time := 700 } }
      ⟨0, 0, 0, false, true, false, [0, 0, 0, 0], 10, 10, 0, 100, "SS"⟩ ∧
    ((stintTick ⟨600, 3, 0, 3⟩
        { stintInit 3 with
          stint_running := true
          stint_data := { emptyStintRecord with time := 700 } }
        ⟨0, 0, 0, false, true, false, [0, 0, 0, 0], 10, 10, 0, 100, "SS"⟩).2 = true) ∧
    ((600 : ℚ) ≤ ({ stintInit 3 with
        stint_running := true
        stint_data := { emptyStintRecord with time := 700 } } : StintState).stint_data.time ∧
     (stintTick ⟨600, 3, 0, 3⟩
        { stintInit 3 with
          stint_running := true
          stint_data := { emptyStintRecord with time := 700 } }
        ⟨0, 0, 0, false, true, false, [0, 0, 0, 0], 10, 10, 0, 100, "SS"⟩).1.history
       = pushHistory 3
          ({ stintInit 3 with
             stint_running := true
             stint_data := { emptyStintRecord with time := 700 } } : StintState).stint_data
          ({ stintInit 3 with
             stint_running := true
             stint_data := { emptyStintRecord with time := 700 } } : StintState).history) := by
  have hpend : ({ stintInit 3 with
      stint_running := true
      stint_data := { emptyStintRecord with time := 700 } } : StintState).pending = none := rfl
  have hg : garageCond
      { stintInit 3 with
        stint_running := true
        stint_data := { emptyStintRecord with time := 700 } }
      ⟨0, 0, 0, false, true, false, [0, 0, 0, 0], 10, 10, 0, 100, "SS"⟩ := Or.inl rfl
  have htrue : (stintTick ⟨600, 3, 0, 3⟩
      { stintInit 3 with
        stint_running := true
        stint_data := { emptyStintRecord with time := 700 } }
      ⟨0, 0, 0, false, true, false, [0, 0, 0, 0], 10, 10, 0, 100, "SS"⟩).2 = true := by
    norm_num [stintTick, garageCond, stintInit, emptyStintRecord]
  exact ⟨hpend, hg, htrue, C3_min_stint_garage_path _ _ _ hpend hg htrue⟩

set_option maxHeartbeats 2000000 in
/-- Counterexample to C3 as stated: with `minimum_stint_seconds = 600` and
`minimum_pitstop_seconds = 3`, a stint of only `2 s` (garage at `t = 0`,
on track at `t = 2`, stationary in pits at `t = 4`) is closed by the
pit-stop path (stationary time `4 s > 3 s`), which pushes the current
record onto the history without any minimum-duration check: the tick
reports a close and the history head is a record with `time = 2 < 600`. -/
theorem C3_counterexample :
    ((stintTick ⟨600, 3, 0, 3⟩
        (stintRun ⟨600, 3, 0, 3⟩ (stintInit 3)
          [⟨0, 0, 0, false, true, false, [0, 0, 0, 0], 10, 10, 0, 100, "SS"⟩,
           ⟨0, 0, 2, false, false, false, [0, 0, 0, 0], 9, 10, 50, 100, "SS"⟩])
        ⟨0, 0, 4, true, false, false, [0, 0, 0, 0], 9, 10, 0, 100, "SS"⟩).2 = true) ∧
    ((stintTick ⟨600, 3, 0, 3⟩
        (stintRun ⟨600, 3, 0, 3⟩ (stintInit 3)
          [⟨0, 0, 0, false, true, false, [0, 0, 0, 0], 10, 10, 0, 100, "SS"⟩,
           ⟨0, 0, 2, false, false, false, [0, 0, 0, 0], 9, 10, 50, 100, "SS"⟩])
        ⟨0, 0, 4, true, false, false, [0, 0, 0, 0], 9, 10, 0, 100, "SS"⟩).1.history.head?
      = some ⟨0, 2, 1, 0, "SS", 0, 0, 100⟩) ∧
    (2 : ℚ) < 600 := by
  refine ⟨?_, ?_, by norm_num⟩ <;>
    norm_num [stintRun, stintTick, stintTail, applyData, applyLap, applyRaise,
      applyReset, garageCond, wearAvg, stintInit, emptyStintRecord, pushHistory,
      MAX_SECONDS]

/-! ### C7: consistency and delta invariants -/

/-- Invariant on the consistency sub-machine's locals: `consistency` stays
in `(0, 1]`, `delta` is non-negative, `stint_fastest` is positive and,
summed over the counted laps, `stint_fastest * stint_laps ≤ stint_time`
(each counted lap is at least the fastest). -/
def CoreInv (st : StintState) : Prop :=
  0 < st.consistency ∧ st.consistency ≤ 1 ∧ 0 ≤ st.delta ∧
  0 < st.stint_fastest ∧ st.stint_fastest * (st.stint_laps : ℚ) ≤ st.stint_time

/-- Invariant on the reported record fields as well. -/
def StintInv (st : StintState) : Prop :=
  CoreInv st ∧ 0 < st.stint_data.consistencyPct ∧
  st.stint_data.consistencyPct ≤ 100 ∧ 0 ≤ st.stint_data.delta

theorem coreInv_stintInit (cap : ℕ) : CoreInv (stintInit cap) := by
  refine ⟨by norm_num [stintInit], by norm_num [stintInit], by norm_num [stintInit],
    by norm_num [stintInit, MAX_SECONDS], by norm_num [stintInit]⟩

theorem applyReset_core (st : StintState) (s : StintSample) (h : CoreInv st) :
    CoreInv (applyReset st s) := by
  unfold applyReset
  split_ifs
  · exact ⟨by norm_num, le_refl 1, le_refl 0, by norm_num [MAX_SECONDS], by norm_num⟩
  · exact h

theorem applyRaise_proj (st : StintState) (s : StintSample) :
    (applyRaise st s).consistency = st.consistency ∧
    (applyRaise st s).delta = st.delta ∧
    (applyRaise st s).pitting = st.pitting ∧
    (applyRaise st s).last_lap_stime = st.last_lap_stime ∧
    (applyRaise st s).stint_laps = st.stint_laps ∧
    (applyRaise st s).stint_time = st.stint_time ∧
    (applyRaise st s).stint_fastest = st.stint_fastest ∧
    (applyRaise st s).stint_data = st.stint_data ∧
    (applyRaise st s).reset_stint = st.reset_stint := by
  unfold applyRaise
  dsimp only
  split_ifs <;> exact ⟨rfl, rfl, rfl, rfl, rfl, rfl, rfl, rfl, rfl⟩

theorem applyRaise_core (st : StintState) (s : StintSample) (h : CoreInv st) :
    CoreInv (applyRaise st s) := by
  obtain ⟨h1, h2, h3, h4, h5, h6, h7, _, _⟩ := applyRaise_proj st s
  unfold CoreInv
  rw [h1, h2, h5, h6, h7]
  exact h

theorem applyLap_core (p : StintParams) (st : StintState) (s : StintSample)
    (h : CoreInv st) : CoreInv (applyLap p st s) := by
  obtain ⟨h1, h2, h3, h4, h5⟩ := h
  unfold applyLap
  dsimp only
  rcases hls : st.last_lap_stime with _ | prev
  · simp only [Option.elim_none]
    exact ⟨h1, h2, h3, h4, h5⟩
  · simp only [Option.elim_some]
    by_cases heq : s.lap_stime = prev
    · rw [if_pos heq]
      exact ⟨h1, h2, h3, h4, h5⟩
    · rw [if_neg heq]
      by_cases hc : (st.pitting || s.in_pits) = false ∧ 0 < s.lap_stime - prev ∧
          p.minimum_tyre_temperature < s.carcass_max
      · rw [if_pos hc]
        obtain ⟨hpit, hlt, htemp⟩ := hc
        have hf1pos : 0 < (if s.lap_stime - prev < st.stint_fastest
            then s.lap_stime - prev else st.stint_fastest) := by
          split_ifs
          · exact hlt
          · exact h4
        have hf1le : (if s.lap_stime - prev < st.stint_fastest
            then s.lap_stime - prev else st.stint_fastest) ≤ st.stint_fastest := by
          split_ifs with hx
          · exact le_of_lt hx
          · exact le_refl _
        have hf1lt : (if s.lap_stime - prev < st.stint_fastest
            then s.lap_stime - prev else st.stint_fastest) ≤ s.lap_stime - prev := by
          split_ifs with hx
          · exact le_refl _
          · exact le_of_not_lt hx
        have hb : (if s.lap_stime - prev < st.stint_fastest
              then s.lap_stime - prev else st.stint_fastest)
            * ((st.stint_laps : ℚ) + 1) ≤ st.stint_time + (s.lap_stime - prev) := by
          have hml : (if s.lap_stime - prev < st.stint_fastest
                then s.lap_stime - prev else st.stint_fastest) * (st.stint_laps : ℚ)
              ≤ st.stint_fastest * (st.stint_laps : ℚ) :=
            mul_le_mul_of_nonneg_right hf1le (Nat.cast_nonneg _)
          nlinarith
        by_cases hn : 1 < st.stint_laps + 1
        · rw [if_pos hn]
          have hd : 0 < ((st.stint_laps + 1 : ℕ) : ℚ) - 1 := by
            have : 1 ≤ st.stint_laps := by omega
            have : (1 : ℚ) ≤ (st.stint_laps : ℚ) := by exact_mod_cast this
            push_cast
            linarith
          by_cases havg : 0 < (st.stint_time + (s.lap_stime - prev)
              - (if s.lap_stime - prev < st.stint_fastest
                 then s.lap_stime - prev else st.stint_fastest))
              / (((st.stint_laps + 1 : ℕ) : ℚ) - 1)
          · rw [if_pos havg]
            have hfle : (if s.lap_stime - prev < st.stint_fastest
                  then s.lap_stime - prev else st.stint_fastest)
                ≤ (st.stint_time + (s.lap_stime - prev)
                  - (if s.lap_stime - prev < st.stint_fastest
                     then s.lap_stime - prev else st.stint_fastest))
                  / (((st.stint_laps + 1 : ℕ) : ℚ) - 1) := by
              rw [le_div_iff hd]
              push_cast
              push_cast at hb
              nlinarith
            refine ⟨div_pos hf1pos havg, ?_, ?_, hf1pos, ?_⟩
            · rw [div_le_one havg]
              exact hfle
            · exact sub_nonneg.mpr hfle
            · push_cast
              push_cast at hb
              linarith
          · rw [if_neg havg]
            refine ⟨h1, h2, h3, hf1pos, ?_⟩
            push_cast
            push_cast at hb
            linarith
        · rw [if_neg hn]
          refine ⟨h1, h2, h3, hf1pos, ?_⟩
          push_cast
          push_cast at hb
          linarith
      · rw [if_neg hc]
        exact ⟨h1, h2, h3, h4, h5⟩

theorem stintTail_core (p : StintParams) (st : StintState) (s : StintSample)
    (h : CoreInv st) : CoreInv (stintTail p st s) :=
  applyLap_core p _ s (applyRaise_core _ s (applyReset_core _ s h))

theorem stintTail_data (p : StintParams) (st : StintState) (s : StintSample) :
    (stintTail p st s).stint_data.consistencyPct = (stintTail p st s).consistency * 100 ∧
    (stintTail p st s).stint_data.delta = (stintTail p st s).delta :=
  ⟨rfl, rfl⟩

theorem stintTail_inv (p : StintParams) (st : StintState) (s : StintSample)
    (h : CoreInv st) : StintInv (stintTail p st s) := by
  have hc := stintTail_core p st s h
  obtain ⟨hd1, hd2⟩ := stintTail_data p st s
  refine ⟨hc, ?_, ?_, ?_⟩
  · rw [hd1]
    have := hc.1
    nlinarith
  · rw [hd1]
    have := hc.2.1
    nlinarith
  · rw [hd2]
    exact hc.2.2.1

theorem stintTick_inv (p : StintParams) (st : StintState) (s : StintSample)
    (h : StintInv st) : StintInv (stintTick p st s).1 := by
  unfold stintTick
  rcases hp : st.pending with _ | s0
  · dsimp only
    by_cases hg : garageCond st s
    · rw [if_pos hg]
      by_cases hc : st.stint_running = true ∧ p.minimum_stint_seconds ≤ st.stint_data.time
      · rw [if_pos hc]
        exact h
      · rw [if_neg hc]
        exact stintTail_inv p _ s h.1
    · rw [if_neg hg]
      by_cases hpit : s.in_pits = false
      · rw [if_pos hpit]
        exact stintTail_inv p _ s h.1
      · rw [if_neg hpit]
        by_cases hrun : st.stint_running = true
        · rw [if_pos hrun]
          by_cases hsp : 1 < s.speed
          · rw [if_pos hsp]
            by_cases hor : ({ st with last_time_stop := s.elapsed_time } :
                  StintState).last_wear_avg > wearAvg s
                ∨ ({ st with last_time_stop := s.elapsed_time } :
                  StintState).last_fuel_curr < s.fuel_curr
                ∨ ({ st with last_time_stop := s.elapsed_time } :
                  StintState).last_energy_curr < s.energy_curr
                ∨ p.minimum_pitstop_seconds < s.elapsed_time
                  - ({ st with last_time_stop := s.elapsed_time } :
                    StintState).last_time_stop
            · rw [if_pos hor]
              exact h
            · rw [if_neg hor]
              exact stintTail_inv p _ s h.1
          · rw [if_neg hsp]
            by_cases hor : st.last_wear_avg > wearAvg s ∨ st.last_fuel_curr < s.fuel_curr
                ∨ st.last_energy_curr < s.energy_curr
                ∨ p.minimum_pitstop_seconds < s.elapsed_time - st.last_time_stop
            · rw [if_pos hor]
              exact h
            · rw [if_neg hor]
              exact stintTail_inv p _ s h.1
        · rw [if_neg hrun]
          exact stintTail_inv p _ s h.1
  · exact stintTail_inv p _ s0 h.1

theorem stintRun_inv (p : StintParams) (samples : List StintSample) :
    ∀ st : StintState, StintInv st → StintInv (stintRun p st samples) := by
  induction samples with
  | nil => exact fun st h => h
  | cons s rest ih =>
    intro st h
    exact ih _ (stintTick_inv p st s h)

theorem stintTick_init_inv (p : StintParams) (cap : ℕ) (s : StintSample) :
    StintInv (stintTick p (stintInit cap) s).1 := by
  unfold stintTick
  have hrun : ¬((stintInit cap).stint_running = true ∧
      p.minimum_stint_seconds ≤ (stintInit cap).stint_data.time) := by
    intro hcon
    simp [stintInit] at hcon
  dsimp only
  by_cases hg : garageCond (stintInit cap) s
  · rw [if_pos hg, if_neg hrun]
    exact stintTail_inv p _ s (coreInv_stintInit cap)
  · rw [if_neg hg]
    by_cases hpit : s.in_pits = false
    · rw [if_pos hpit]
      exact stintTail_inv p _ s (coreInv_stintInit cap)
    · rw [if_neg hpit]
      rw [if_neg (by simp [stintInit])]
      exact stintTail_inv p _ s (coreInv_stintInit cap)

theorem applyReset_proj_true (st : StintState) (s : StintSample)
    (h : st.reset_stint = true) :
    (applyReset st s).consistency = 1 ∧ (applyReset st s).delta = 0 ∧
    (applyReset st s).last_lap_stime = none := by
  unfold applyReset
  rw [if_pos h]
  exact ⟨rfl, rfl, rfl⟩

theorem applyReset_skip (st : StintState) (s : StintSample)
    (h : st.reset_stint = false) : applyReset st s = st := by
  unfold applyReset
  rw [if_neg]
  rw [h]
  exact Bool.false_ne_true

theorem applyLap_persist (p : StintParams) (st : StintState) (s : StintSample)
    (hls : st.last_lap_stime = some s.lap_stime) :
    (applyLap p st s).consistency = st.consistency ∧
    (applyLap p st s).delta = st.delta := by
  unfold applyLap
  dsimp only
  rw [hls]
  simp only [Option.elim_some]
  rw [if_pos trivial]
  exact ⟨rfl, rfl⟩

theorem applyLap_noncount (p : StintParams) (st : StintState) (s : StintSample)
    (prev : ℚ) (hls : st.last_lap_stime = some prev) (hne : s.lap_stime ≠ prev)
    (hnc : ¬((st.pitting || s.in_pits) = false ∧ 0 < s.lap_stime - prev ∧
        p.minimum_tyre_temperature < s.carcass_max)) :
    (applyLap p st s).consistency = st.consistency ∧
    (applyLap p st s).delta = st.delta := by
  unfold applyLap
  dsimp only
  rw [hls]
  simp only [Option.elim_some]
  rw [if_neg hne, if_neg hnc]
  exact ⟨rfl, rfl⟩

theorem applyLap_count_formula (p : StintParams) (st : StintState) (s : StintSample)
    (prev : ℚ) (hls : st.last_lap_stime = some prev) (hne : s.lap_stime ≠ prev)
    (hpit : (st.pitting || s.in_pits) = false) (hlt : 0 < s.lap_stime - prev)
    (htemp : p.minimum_tyre_temperature < s.carcass_max)
    (hn : 1 < st.stint_laps + 1)
    (havg : 0 < (st.stint_time + (s.lap_stime - prev)
        - (if s.lap_stime - prev < st.stint_fastest then s.lap_stime - prev
           else st.stint_fastest)) / (((st.stint_laps + 1 : ℕ) : ℚ) - 1)) :
    (applyLap p st s).consistency
      = (if s.lap_stime - prev < st.stint_fastest then s.lap_stime - prev
         else st.stint_fastest)
        / ((st.stint_time + (s.lap_stime - prev)
            - (if s.lap_stime - prev < st.stint_fastest then s.lap_stime - prev
               else st.stint_fastest)) / (((st.stint_laps + 1 : ℕ) : ℚ) - 1)) ∧
    (applyLap p st s).delta
      = (st.stint_time + (s.lap_stime - prev)
          - (if s.lap_stime - prev < st.stint_fastest then s.lap_stime - prev
             else st.stint_fastest)) / (((st.stint_laps + 1 : ℕ) : ℚ) - 1)
        - (if s.lap_stime - prev < st.stint_fastest then s.lap_stime - prev
           else st.stint_fastest) := by
  unfold applyLap
  dsimp only
  rw [hls]
  simp only [Option.elim_some]
  rw [if_neg hne, if_pos ⟨hpit, hlt, htemp⟩, if_pos hn, if_pos havg]
  exact ⟨rfl, rfl⟩

theorem stintTail_persist (p : StintParams) (st : StintState) (s : StintSample)
    (hres : st.reset_stint = false) (hls : st.last_lap_stime = some s.lap_stime) :
    (stintTail p st s).consistency = st.consistency ∧
    (stintTail p st s).delta = st.delta ∧
    (stintTail p st s).stint_data.consistencyPct = st.consistency * 100 ∧
    (stintTail p st s).stint_data.delta = st.delta := by
  unfold stintTail
  rw [applyReset_skip { st with last_time := s.elapsed_time } s hres]
  obtain ⟨hc1, hd1, _, hl1, _, _, _, _, _⟩ :=
    applyRaise_proj { st with last_time := s.elapsed_time } s
  obtain ⟨hcl, hdl⟩ :=
    applyLap_persist p (applyRaise { st with last_time := s.elapsed_time } s) s
      (hl1.trans hls)
  exact ⟨hcl.trans hc1, hdl.trans hd1,
    by show (applyLap p _ s).consistency * 100 = st.consistency * 100
       rw [hcl.trans hc1],
    hdl.trans hd1⟩

theorem stintTail_reset (p : StintParams) (st : StintState) (s : StintSample)
    (hres : st.reset_stint = true) :
    (stintTail p st s).consistency = 1 ∧
    (stintTail p st s).delta = 0 ∧
    (stintTail p st s).stint_data.consistencyPct = 100 ∧
    (stintTail p st s).stint_data.delta = 0 := by
  unfold stintTail
  obtain ⟨hc0, hd0, hl0⟩ :=
    applyReset_proj_true { st with last_time := s.elapsed_time } s hres
  obtain ⟨hc1, hd1, _, hl1, _, _, _, _, _⟩ :=
    applyRaise_proj (applyReset { st with last_time := s.elapsed_time } s) s
  have hlap : (applyLap p
      (applyRaise (applyReset { st with last_time := s.elapsed_time } s) s) s).consistency
        = 1 ∧
      (applyLap p
        (applyRaise (applyReset { st with last_time := s.elapsed_time } s) s) s).delta
        = 0 := by
    unfold applyLap
    dsimp only
    rw [hl1.trans hl0]
    simp only [Option.elim_none]
    exact ⟨hc1.trans hc0, hd1.trans hd0⟩
  refine ⟨hlap.1, hlap.2, ?_, hlap.2⟩
  show (applyLap p _ s).consistency * 100 = 100
  rw [hlap.1]
  norm_num

/-- C7: over any run of the stint machine (first tick from the primed
generator, then arbitrary further ticks), the reported
`stint_data[7] = consistency * 100` always lies in `(0, 100]` and the
reported `stint_data[6] = delta` is non-negative; at a counting step with a
new countable lap, at least two counted laps and a positive
average-excluding-fastest, the stored `consistency` becomes
`fastest / averageExcludingFastest` and `delta` becomes
`averageExcludingFastest - fastest` (with
`averageExcludingFastest = (totalTime - fastest) / (count - 1)`); both
values persist unchanged across ticks with no new lap and across
non-countable laps, and they are reset to `1.0` / `0.0` (reported
`100` / `0`) exactly by the stint-reset path. -/
theorem C7_consistency_stats (p : StintParams) :
    (∀ (cap : ℕ) (s0 : StintSample) (samples : List StintSample),
      0 < (stintRun p (stintTick p (stintInit cap) s0).1 samples).stint_data.consistencyPct ∧
      (stintRun p (stintTick p (stintInit cap) s0).1 samples).stint_data.consistencyPct ≤ 100 ∧
      0 ≤ (stintRun p (stintTick p (stintInit cap) s0).1 samples).stint_data.delta) ∧
    (∀ (st : StintState) (s : StintSample) (prev : ℚ),
      st.last_lap_stime = some prev → s.lap_stime ≠ prev →
      (st.pitting || s.in_pits) = false → 0 < s.lap_stime - prev →
      p.minimum_tyre_temperature < s.carcass_max →
      1 < st.stint_laps + 1 →
      0 < (st.stint_time + (s.lap_stime - prev)
          - (if s.lap_stime - prev < st.stint_fastest then s.lap_stime - prev
             else st.stint_fastest)) / (((st.stint_laps + 1 : ℕ) : ℚ) - 1) →
      (applyLap p st s).consistency
        = (if s.lap_stime - prev < st.stint_fastest then s.lap_stime - prev
           else st.stint_fastest)
          / ((st.stint_time + (s.lap_stime - prev)
              - (if s.lap_stime - prev < st.stint_fastest then s.lap_stime - prev
                 else st.stint_fastest)) / (((st.stint_laps + 1 : ℕ) : ℚ) - 1)) ∧
      (applyLap p st s).delta
        = (st.stint_time + (s.lap_stime - prev)
            - (if s.lap_stime - prev < st.stint_fastest then s.lap_stime - prev
               else st.stint_fastest)) / (((st.stint_laps + 1 : ℕ) : ℚ) - 1)
          - (if s.lap_stime - prev < st.stint_fastest then s.lap_stime - prev
             else st.stint_fastest)) ∧
    (∀ (st : StintState) (s : StintSample),
      st.reset_stint = false → st.last_lap_stime = some s.lap_stime →
      (stintTail p st s).consistency = st.consistency ∧
      (stintTail p st s).delta = st.delta ∧
      (stintTail p st s).stint_data.consistencyPct = st.consistency * 100 ∧
      (stintTail p st s).stint_data.delta = st.delta) ∧
    (∀ (st : StintState) (s : StintSample) (prev : ℚ),
      st.last_lap_stime = some prev → s.lap_stime ≠ prev →
      ¬((st.pitting || s.in_pits) = false ∧ 0 < s.lap_stime - prev ∧
        p.minimum_tyre_temperature < s.carcass_max) →
      (applyLap p st s).consistency = st.consistency ∧
      (applyLap p st s).delta = st.delta) ∧
    (∀ (st : StintState) (s : StintSample), st.reset_stint = true →
      (stintTail p st s).consistency = 1 ∧
      (stintTail p st s).delta = 0 ∧
      (stintTail p st s).stint_data.consistencyPct = 100 ∧
      (stintTail p st s).stint_data.delta = 0) := by
  refine ⟨?_, ?_, ?_, ?_, ?_⟩
  · intro cap s0 samples
    have h := stintRun_inv p samples _ (stintTick_init_inv p cap s0)
    exact ⟨h.2.1, h.2.2.1, h.2.2.2⟩
  · intro st s prev hls hne hpit hlt htemp hn havg
    exact applyLap_count_formula p st s prev hls hne hpit hlt htemp hn havg
  · intro st s hres hls
    exact stintTail_persist p st s hres hls
  · intro st s prev hls hne hnc
    exact applyLap_noncount p st s prev hls hne hnc
  · intro st s hres
    exact stintTail_reset p st s hres

/-- Witness for C7: the bounds at a one-tick run; the counting-step formula
at one counted lap of `90 s` followed by a countable lap of `92 s`
(`consistency = 90 / 92`, `delta = 2`); persistence with an unchanged lap
start time; a non-countable lap while `pitting`; and the reset path. -/
theorem C7_consistency_stats_witness :
    (0 < (stintRun ⟨600, 3, 0, 3⟩
        (stintTick ⟨600, 3, 0, 3⟩ (stintInit 3)
          ⟨0, 0, 0, false, true, false, [0, 0, 0, 0], 10, 10, 0, 100, "SS"⟩).1
        []).stint_data.consistencyPct ∧
     (stintRun ⟨600, 3, 0, 3⟩
        (stintTick ⟨600, 3, 0, 3⟩ (stintInit 3)
          ⟨0, 0, 0, false, true, false, [0, 0, 0, 0], 10, 10, 0, 100, "SS"⟩).1
        []).stint_data.consistencyPct ≤ 100 ∧
     0 ≤ (stintRun ⟨600, 3, 0, 3⟩
        (stintTick ⟨600, 3, 0, 3⟩ (stintInit 3)
          ⟨0, 0, 0, false, true, false, [0, 0, 0, 0], 10, 10, 0, 100, "SS"⟩).1
        []).stint_data.delta) ∧
    ((applyLap ⟨600, 3, 0, 3⟩
        { stintInit 3 with
          pitting := false
          last_lap_stime := some 0
          stint_laps := 1
          stint_time := 90
          stint_fastest := 90 }
        ⟨92, 0, 100, false, false, false, [0, 0, 0, 0], 9, 10, 50, 100, "SS"⟩).consistency
      = (if (92 : ℚ) - 0 < 90 then (92 : ℚ) - 0 else 90)
        / (((90 : ℚ) + ((92 : ℚ) - 0) - (if (92 : ℚ) - 0 < 90 then (92 : ℚ) - 0 else 90))
          / (((1 + 1 : ℕ) : ℚ) - 1))) ∧
    ((applyLap ⟨600, 3, 0, 3⟩
        { stintInit 3 with
          reset_stint := false
          last_lap_stime := some 5 }
        ⟨5, 0, 100, false, false, false, [0, 0, 0, 0], 9, 10, 50, 100, "SS"⟩).consistency
      = ({ stintInit 3 with
          reset_stint := false
          last_lap_stime := some 5 } : StintState).consistency) ∧
    ((stintTail ⟨600, 3, 0, 3⟩ (stintInit 3)
        ⟨0, 0, 0, false, true, false, [0, 0, 0, 0], 10, 10, 0, 100, "SS"⟩).consistency = 1 ∧
     (stintTail ⟨600, 3, 0, 3⟩ (stintInit 3)
        ⟨0, 0, 0, false, true, false, [0, 0, 0, 0], 10, 10, 0, 100, "SS"⟩).stint_data.consistencyPct
      = 100) := by
  have h := C7_consistency_stats ⟨600, 3, 0, 3⟩
  refine ⟨h.1 3 ⟨0, 0, 0, false, true, false, [0, 0, 0, 0], 10, 10, 0, 100, "SS"⟩ [], ?_, ?_, ?_, ?_⟩
  · exact (h.2.1
      { stintInit 3 with
        pitting := false
        last_lap_stime := some 0
        stint_laps := 1
        stint_time := 90
        stint_fastest := 90 }
      ⟨92, 0, 100, false, false, false, [0, 0, 0, 0], 9, 10, 50, 100, "SS"⟩ 0
      rfl (by norm_num) rfl (by norm_num) (by norm_num) (by norm_num)
      (by norm_num)).1
  · exact (h.2.2.1
      { stintInit 3 with
        reset_stint := false
        last_lap_stime := some 5 }
      ⟨5, 0, 100, false, false, false, [0, 0, 0, 0], 9, 10, 50, 100, "SS"⟩
      rfl rfl).1
  · have hr := h.2.2.2.2 (stintInit 3)
      ⟨0, 0, 0, false, true, false, [0, 0, 0, 0], 10, 10, 0, 100, "SS"⟩ rfl
    exact hr.1
  · have hr := h.2.2.2.2 (stintInit 3)
      ⟨0, 0, 0, false, true, false, [0, 0, 0, 0], 10, 10, 0, 100, "SS"⟩ rfl
    exact hr.2.2.1

end TinyPedalBroadcast
